import Mathlib

/-!
# MailSlurp client: in-memory fake and response decoding

A shallow embedding of `mailslurp_client.go` (the data types and the response
handling of `DefaultMailSlurpClient`) and of `mailslurp_test.go` (the
in-memory `MockMailSlurpClient`).

Conventions of the embedding:

* Go `string` is `String`, Go slices are `List` (a nil slice and an empty
  slice are both `[]`), `error` is the error text, a method with result
  `(T, error)` returns `Except String T`.
* `time.Time` is the structure `Time`; `Time.zero` is Go's zero time. The
  clock reading `time.Now()` is an argument `now` of the method that reads it.
* A Go `map[string][]Email` is `EmailMap`: `none` is the nil map, `some f`
  a map whose entry for `k` is `f k` (`none`: no entry).
* A method with a pointer receiver that mutates the receiver returns the new
  receiver next to its result.
-/

namespace MailSlurp

/-! ## Data types (`mailslurp_client.go`) -/

/-- Go `time.Time`, as the number of nanoseconds since the zero time. -/
structure Time where
  nanos : Nat
  deriving DecidableEq, Repr

/-- The zero value of `time.Time`. -/
def Time.zero : Time := ⟨0⟩

/-- The `Email` struct. -/
structure Email where
  ID : String
  Subject : String
  Body : String
  From : String
  To : List String
  Created : Time
  Read : Bool
  deriving DecidableEq, Repr

/-- The zero value of `Email`. -/
def Email.zero : Email :=
  { ID := "", Subject := "", Body := "", From := "", To := [], Created := Time.zero,
    Read := false }

/-- The `Inbox` struct. -/
structure Inbox where
  ID : String
  EmailAddress : String
  CreatedAt : Time
  Name : String
  Description : String
  deriving DecidableEq, Repr

/-! ## The in-memory fake (`mailslurp_test.go`) -/

/-- A Go `map[string][]Email`: `none` is the nil map. -/
abbrev EmailMap := Option (String → Option (List Email))

/-- The map read `m[k]` with its `ok` flag: `none` when there is no entry (always so
for the nil map). -/
def EmailMap.get (m : EmailMap) (k : String) : Option (List Email) :=
  match m with
  | none => none
  | some f => f k

/-- The one-result map read `m[k]`: the zero value (nil slice) when there is no entry. -/
def EmailMap.getD (m : EmailMap) (k : String) : List Email :=
  (m.get k).getD []

/-- The assignment `m[k] = v` on a non-nil map. -/
def EmailMap.set (f : String → Option (List Email)) (k : String) (v : List Email) :
    String → Option (List Email) :=
  fun j => if j = k then some v else f j

/-- The builtin `delete(m, k)`: a no-op on the nil map. -/
def EmailMap.delete (m : EmailMap) (k : String) : EmailMap :=
  match m with
  | none => none
  | some f => some (fun j => if j = k then none else f j)

/-- The `MockMailSlurpClient` struct. -/
structure MockMailSlurpClient where
  inboxes : List Inbox
  emails : EmailMap

namespace MockMailSlurpClient

/-- The zero value `&MockMailSlurpClient{}`: no mailbox, nil message map. -/
def empty : MockMailSlurpClient := { inboxes := [], emails := none }

/-- `GetInboxes`: the mailbox list, never an error. -/
def GetInboxes (m : MockMailSlurpClient) : Except String (List Inbox) :=
  .ok m.inboxes

/-- `CreateInbox`: builds the mailbox from the current length of the mailbox list
and appends it. -/
def CreateInbox (m : MockMailSlurpClient) (now : Time) :
    MockMailSlurpClient × Except String Inbox :=
  let inbox : Inbox :=
    { ID := "mock-inbox-" ++ toString (m.inboxes.length + 1),
      EmailAddress := "mock" ++ toString (m.inboxes.length + 1) ++ "@example.com",
      CreatedAt := now, Name := "", Description := "" }
  ({ m with inboxes := m.inboxes ++ [inbox] }, .ok inbox)

/-- The `for i, inbox := range m.inboxes` search of `DeleteInbox`: the index of the
first mailbox whose `ID` equals `inboxID`, counting from `i`. -/
def findInbox (inboxID : String) : List Inbox → Nat → Option Nat
  | [], _ => none
  | inbox :: rest, i => if inbox.ID = inboxID then some i else findInbox inboxID rest (i + 1)

/-- `DeleteInbox`: at the first mailbox with the given `ID`, cuts it out of the list
(`append(m.inboxes[:i], m.inboxes[i+1:]...)`), deletes the map entry and returns;
the not-found error when the loop ends without a match. -/
def DeleteInbox (m : MockMailSlurpClient) (inboxID : String) :
    MockMailSlurpClient × Except String Unit :=
  match findInbox inboxID m.inboxes 0 with
  | some i =>
    ({ inboxes := m.inboxes.take i ++ m.inboxes.drop (i + 1),
       emails := m.emails.delete inboxID }, .ok ())
  | none => (m, .error ("почтовый ящик с ID " ++ inboxID ++ " не найден"))

/-- `SendEmail`: builds the record from the current length of the identifier's
message list, makes the map when it is nil, and appends the record. -/
def SendEmail (m : MockMailSlurpClient) (inboxID toAddr subject body : String) (now : Time) :
    MockMailSlurpClient × Except String Unit :=
  let email : Email :=
    { ID := "mock-email-" ++ toString ((m.emails.getD inboxID).length + 1),
      Subject := subject, Body := body, From := "sender@example.com", To := [toAddr],
      Created := now, Read := false }
  let f : String → Option (List Email) :=
    match m.emails with
    | none => fun _ => none
    | some f => f
  ({ m with emails := some (EmailMap.set f inboxID ((EmailMap.getD (some f) inboxID) ++ [email])) },
    .ok ())

/-- `WaitForLatestEmail`: the last element of the identifier's list when the entry
exists and is non-empty, else the not-found error; the timeout argument (milliseconds) is unused. -/
def WaitForLatestEmail (m : MockMailSlurpClient) (inboxID : String) (_timeout : Int) :
    Except String Email :=
  match m.emails.get inboxID with
  | some emails =>
    if h : 0 < emails.length then
      .ok (emails.get ⟨emails.length - 1, by omega⟩)
    else .error ("письма не найдены для почтового ящика с ID " ++ inboxID)
  | none => .error ("письма не найдены для почтового ящика с ID " ++ inboxID)

/-- `GetEmails`: the identifier's list when the entry exists, else the empty list. -/
def GetEmails (m : MockMailSlurpClient) (inboxID : String) : Except String (List Email) :=
  match m.emails.get inboxID with
  | some emails => .ok emails
  | none => .ok []

/-- The arguments of one `SendEmail` call to a given mailbox identifier, with the
clock reading of that call. -/
structure SendArgs where
  toAddr : String
  subject : String
  body : String
  now : Time

/-- One call on the fake that changes its state. -/
inductive Call where
  | createInbox (now : Time)
  | deleteInbox (inboxID : String)
  | sendEmail (inboxID toAddr subject body : String) (now : Time)

/-- The state after one call. -/
def step (m : MockMailSlurpClient) : Call → MockMailSlurpClient
  | .createInbox now => (m.CreateInbox now).1
  | .deleteInbox inboxID => (m.DeleteInbox inboxID).1
  | .sendEmail inboxID toAddr subject body now => (m.SendEmail inboxID toAddr subject body now).1

/-- The state after a sequence of calls, in order. -/
def run (m : MockMailSlurpClient) (calls : List Call) : MockMailSlurpClient :=
  calls.foldl step m

/-- The states the fake can be in: those a sequence of `CreateInbox`, `DeleteInbox`
and `SendEmail` calls makes from the empty fake. -/
def Reachable (m : MockMailSlurpClient) : Prop :=
  ∃ calls : List Call, m = run empty calls


/-- The calls `SendEmail(inboxID, ...)` for a list of arguments, in order. -/
def sendCalls (inboxID : String) (sends : List SendArgs) : List Call :=
  sends.map (fun a => Call.sendEmail inboxID a.toAddr a.subject a.body a.now)

/-- The record `SendEmail` builds from the arguments `a` when the identifier's list
holds `k` messages. -/
def sentRecord (k : Nat) (a : SendArgs) : Email :=
  { ID := "mock-email-" ++ toString (k + 1), Subject := a.subject, Body := a.body,
    From := "sender@example.com", To := [a.toAddr], Created := a.now, Read := false }

/-- The records a run of `SendEmail` calls to one identifier builds, the first one made
when the identifier's list holds `k` messages. -/
def sentRecords (k : Nat) : List SendArgs → List Email
  | [] => []
  | a :: rest => sentRecord k a :: sentRecords (k + 1) rest

/-- The fake after `CreateInbox`, `CreateInbox`, `DeleteInbox("mock-inbox-1")`,
`CreateInbox`, starting from the empty fake. -/
def afterRecreate : MockMailSlurpClient :=
  run empty [.createInbox ⟨1⟩, .createInbox ⟨2⟩, .deleteInbox "mock-inbox-1", .createInbox ⟨3⟩]

end MockMailSlurpClient

/-! ## The remote client (`mailslurp_client.go`)

Each method of `DefaultMailSlurpClient` makes one HTTP exchange and then handles the
response. The embedding is of the response handling: a method takes the `Response`
(status code and the body as read by `ioutil.ReadAll`) and returns what the Go method
returns. The standard-library functions the client calls are the fields of `Library`. -/

/-- A JSON value, as `encoding/json` builds it for an `interface{}` target: the members
of an object are kept in the order of the text. -/
inductive JSON where
  | null
  | bool (b : Bool)
  | number (literal : String)
  | str (s : String)
  | array (items : List JSON)
  | object (members : List (String × JSON))

/-- The standard-library functions the client relies on. `jsonParse` is the syntax layer
of `json.Unmarshal` (`none`: the text is not valid JSON), `foldName` the case folding
under which `encoding/json` matches an object key to a struct field, `parseRFC3339` is
`time.Parse(time.RFC3339, ·)` (`none`: the call returns an error), `fitsFloat64` tells
whether `strconv.ParseFloat(literal, 64)` returns no error for a JSON number literal
(`false`: the number is out of the range of a `float64`). -/
structure Library where
  jsonParse : String → Option JSON
  foldName : String → String
  parseRFC3339 : String → Option Time
  fitsFloat64 : String → Bool

/-- An HTTP response: `resp.StatusCode` and the body text. -/
structure Response where
  StatusCode : Nat
  Body : String

/-- The errors of the remote client's response handling: `api text` is made by one of
the `fmt.Errorf("ошибка API: ...")` calls and `text` is its whole text; `unparsable` is
`fmt.Errorf("не удалось распарсить ответ API: %v", err)`. -/
inductive ClientError where
  | api (text : String)
  | unparsable
  deriving DecidableEq, Repr

/-- The `ErrorResponse` struct. -/
structure ErrorResponse where
  Status : String
  Message : String
  ErrorCode : String
  CaseNumber : String
  deriving DecidableEq, Repr

/-- The `InboxResponse` struct. -/
structure InboxResponse where
  ID : String
  EmailAddress : String
  CreatedAt : String
  Name : String
  Description : String
  deriving DecidableEq, Repr

/-- A Go `map[string]interface{}` filled by `json.Unmarshal`: `none` is the nil map,
`some members` the map made from an object's members. -/
abbrev DataMap := Option (List (String × JSON))

/-- The value a map made from `members` holds under `key`: the last member with that
key (a later duplicate overwrites an earlier one), `none` when there is none. -/
def lookupMember : List (String × JSON) → String → Option JSON
  | [], _ => none
  | (k, v) :: rest, key =>
    match lookupMember rest key with
    | some w => some w
    | none => if k = key then some v else none

/-- The map read `data[key]`: `none` when the map is nil or has no such key. -/
def DataMap.index (data : DataMap) (key : String) : Option JSON :=
  match data with
  | none => none
  | some members => lookupMember members key

mutual
/-- Every number in the value, at any depth, converts to a `float64`: for an
`interface{}` target `encoding/json` converts each number it meets with
`strconv.ParseFloat` and reports the first failure as the error of the call. -/
def JSON.numbersFit (fits : String → Bool) : JSON → Bool
  | .null => true
  | .bool _ => true
  | .str _ => true
  | .number literal => fits literal
  | .array items => numbersFitList fits items
  | .object members => numbersFitMembers fits members
/-- Every number in the elements of an array converts to a `float64`. -/
def numbersFitList (fits : String → Bool) : List JSON → Bool
  | [] => true
  | v :: rest => v.numbersFit fits && numbersFitList fits rest
/-- Every number in the member values of an object converts to a `float64`. -/
def numbersFitMembers (fits : String → Bool) : List (String × JSON) → Bool
  | [] => true
  | (_, v) :: rest => v.numbersFit fits && numbersFitMembers fits rest
end

/-- The call `json.Unmarshal(body, &data)` for `data map[string]interface{}`: an
object gives its map, provided every number in it converts to a `float64` (else the
call returns an error), `null` leaves the map nil, anything else is an error (`none`). -/
def unmarshalMap (lib : Library) (body : String) : Option DataMap :=
  match lib.jsonParse body with
  | some (.object members) =>
    if numbersFitMembers lib.fitsFloat64 members then some (some members) else none
  | some .null => some none
  | _ => none

/-- The struct field (by JSON name, `fields` in declaration order) that `encoding/json`
assigns the object key `key` to: the field of that exact name, else the first field
equal to it under case folding. -/
def matchField (lib : Library) (fields : List String) (key : String) : Option String :=
  match fields.find? (fun f => f = key) with
  | some f => some f
  | none => fields.find? (fun f => lib.foldName f = lib.foldName key)

/-- Decoding the members of an object into a struct whose fields are all strings,
member by member: a string value is assigned to the matched field, `null` and unknown
keys are skipped, any other value for a known field is a type error (`none`; the
callers use the struct only when there was no error). -/
def decodeStringFields (lib : Library) (fields : List String) :
    List (String × JSON) → (String → String) → Option (String → String)
  | [], acc => some acc
  | (k, v) :: rest, acc =>
    match matchField lib fields k with
    | none => decodeStringFields lib fields rest acc
    | some f =>
      match v with
      | .str s => decodeStringFields lib fields rest (fun g => if g = f then s else acc g)
      | .null => decodeStringFields lib fields rest acc
      | _ => none

/-- Decoding a JSON value into a zero struct whose fields are all strings: the field
values by JSON name. `null` leaves the struct zero; a non-object is a type error. -/
def decodeStruct (lib : Library) (fields : List String) : JSON → Option (String → String)
  | .object members => decodeStringFields lib fields members (fun _ => "")
  | .null => some (fun _ => "")
  | _ => none

/-- The call `json.Unmarshal(body, &errorResp)` for `errorResp ErrorResponse`;
`none` when it returns an error. -/
def unmarshalErrorResponse (lib : Library) (body : String) : Option ErrorResponse :=
  match lib.jsonParse body with
  | none => none
  | some v =>
    (decodeStruct lib ["status", "message", "errorCode", "caseNumber"] v).map
      (fun val => { Status := val "status", Message := val "message",
                    ErrorCode := val "errorCode", CaseNumber := val "caseNumber" })

/-- Decoding one JSON value into an `InboxResponse`. -/
def decodeInboxResponse (lib : Library) (v : JSON) : Option InboxResponse :=
  (decodeStruct lib ["id", "emailAddress", "createdAt", "name", "description"] v).map
    (fun val => { ID := val "id", EmailAddress := val "emailAddress",
                  CreatedAt := val "createdAt", Name := val "name",
                  Description := val "description" })

/-- The call `json.Unmarshal(body, &inboxResp)` for `inboxResp InboxResponse`. -/
def unmarshalInboxResponse (lib : Library) (body : String) : Option InboxResponse :=
  match lib.jsonParse body with
  | none => none
  | some v => decodeInboxResponse lib v

/-- Decoding the elements of an array into `InboxResponse`s; an error in any element
is an error of the call. -/
def decodeInboxResponses (lib : Library) : List JSON → Option (List InboxResponse)
  | [] => some []
  | v :: rest =>
    match decodeInboxResponse lib v, decodeInboxResponses lib rest with
    | some r, some rs => some (r :: rs)
    | _, _ => none

/-- The call `json.Unmarshal(body, &inboxResponses)` for `inboxResponses []InboxResponse`:
an array is decoded element by element, `null` leaves the slice nil. -/
def unmarshalInboxResponses (lib : Library) (body : String) : Option (List InboxResponse) :=
  match lib.jsonParse body with
  | some (.array items) => decodeInboxResponses lib items
  | some .null => some []
  | _ => none

/-- The loop `for i, x := range xs { if v, ok := g(x); ok { out[i] = v } }`, started
at index `i` on the slice `out`. -/
def fillFrom {α β : Type} (g : α → Option β) : List α → Nat → List β → List β
  | [], _, out => out
  | x :: rest, i, out =>
    fillFrom g rest (i + 1) (match g x with
      | some v => out.set i v
      | none => out)

/-- The type assertion `t.(string)`. -/
def asString : JSON → Option String
  | .str s => some s
  | _ => none

/-- The helper `getStringValue`. -/
def getStringValue (data : DataMap) (key : String) : String :=
  match data.index key with
  | some (.str value) => value
  | _ => ""

/-- The helper `getBoolValue`. -/
def getBoolValue (data : DataMap) (key : String) : Bool :=
  match data.index key with
  | some (.bool value) => value
  | _ => false

/-- The conversion of an `InboxResponse` to an `Inbox` that `GetInboxes` and
`CreateInbox` write out: the error of `time.Parse` is dropped, which leaves the zero time. -/
def inboxOfResponse (lib : Library) (resp : InboxResponse) : Inbox :=
  { ID := resp.ID, EmailAddress := resp.EmailAddress,
    CreatedAt := (lib.parseRFC3339 resp.CreatedAt).getD Time.zero,
    Name := resp.Name, Description := resp.Description }

namespace DefaultMailSlurpClient

/-- `GetInboxes`, from the status check on. -/
def GetInboxes (lib : Library) (resp : Response) : Except ClientError (List Inbox) :=
  if resp.StatusCode ≠ 200 then
    .error (.api ("ошибка API: " ++ resp.Body ++ ", код: " ++ toString resp.StatusCode))
  else
    match unmarshalInboxResponses lib resp.Body with
    | none => .error .unparsable
    | some inboxResponses =>
      .ok (fillFrom (fun r => some (inboxOfResponse lib r)) inboxResponses 0
        (List.replicate inboxResponses.length
          { ID := "", EmailAddress := "", CreatedAt := Time.zero, Name := "",
            Description := "" }))

/-- `CreateInbox`, from the status check on. -/
def CreateInbox (lib : Library) (resp : Response) : Except ClientError Inbox :=
  if resp.StatusCode ≠ 200 ∧ resp.StatusCode ≠ 201 then
    match unmarshalErrorResponse lib resp.Body with
    | some errorResp =>
      if errorResp.Message ≠ "" then
        .error (.api ("ошибка API: " ++ errorResp.ErrorCode ++ " - " ++ errorResp.Message
          ++ ", код: " ++ toString resp.StatusCode))
      else
        .error (.api ("ошибка API: " ++ resp.Body ++ ", код: " ++ toString resp.StatusCode))
    | none =>
      .error (.api ("ошибка API: " ++ resp.Body ++ ", код: " ++ toString resp.StatusCode))
  else
    match unmarshalInboxResponse lib resp.Body with
    | none => .error .unparsable
    | some inboxResp => .ok (inboxOfResponse lib inboxResp)

/-- `DeleteInbox`, from the status check on. -/
def DeleteInbox (lib : Library) (resp : Response) : Except ClientError Unit :=
  if resp.StatusCode ≠ 200 ∧ resp.StatusCode ≠ 204 then
    match unmarshalErrorResponse lib resp.Body with
    | some errorResp =>
      if errorResp.Message ≠ "" then
        .error (.api ("ошибка API: " ++ errorResp.ErrorCode ++ " - " ++ errorResp.Message
          ++ ", код: " ++ toString resp.StatusCode))
      else
        .error (.api ("ошибка API: " ++ resp.Body ++ ", код: " ++ toString resp.StatusCode))
    | none =>
      .error (.api ("ошибка API: " ++ resp.Body ++ ", код: " ++ toString resp.StatusCode))
  else .ok ()

/-- `SendEmail`, from the status check on. -/
def SendEmail (lib : Library) (resp : Response) : Except ClientError Unit :=
  if resp.StatusCode ≠ 200 ∧ resp.StatusCode ≠ 201 then
    match unmarshalErrorResponse lib resp.Body with
    | some errorResp =>
      if errorResp.Message ≠ "" then
        .error (.api ("ошибка API: " ++ errorResp.ErrorCode ++ " - " ++ errorResp.Message
          ++ ", код: " ++ toString resp.StatusCode))
      else
        .error (.api ("ошибка API: " ++ resp.Body ++ ", код: " ++ toString resp.StatusCode))
    | none =>
      .error (.api ("ошибка API: " ++ resp.Body ++ ", код: " ++ toString resp.StatusCode))
  else .ok ()

/-- The field extraction of `WaitForLatestEmail` (the code after `json.Unmarshal`), on
the decoded map `emailData`. -/
def WaitForLatestEmail.decode (lib : Library) (emailData : DataMap) : Email :=
  let email : Email :=
    { ID := getStringValue emailData "id",
      Subject := getStringValue emailData "subject",
      Body := getStringValue emailData "body",
      From := getStringValue emailData "from",
      To := [], Created := Time.zero,
      Read := getBoolValue emailData "read" }
  let email : Email :=
    match emailData.index "to" with
    | some (.array to_) =>
      { email with To := fillFrom asString to_ 0 (List.replicate to_.length "") }
    | _ => email
  match emailData.index "createdAt" with
  | some (.str createdAtStr) =>
    match lib.parseRFC3339 createdAtStr with
    | some createdAt => { email with Created := createdAt }
    | none => email
  | _ => email

/-- `WaitForLatestEmail`, from the status check on. -/
def WaitForLatestEmail (lib : Library) (resp : Response) : Except ClientError Email :=
  if resp.StatusCode ≠ 200 then
    match unmarshalErrorResponse lib resp.Body with
    | some errorResp =>
      if errorResp.Message ≠ "" then
        .error (.api ("ошибка API: " ++ errorResp.ErrorCode ++ " - " ++ errorResp.Message
          ++ ", код: " ++ toString resp.StatusCode))
      else
        .error (.api ("ошибка API: " ++ resp.Body ++ ", код: " ++ toString resp.StatusCode))
    | none =>
      .error (.api ("ошибка API: " ++ resp.Body ++ ", код: " ++ toString resp.StatusCode))
  else
    match unmarshalMap lib resp.Body with
    | none => .error .unparsable
    | some emailData => .ok (WaitForLatestEmail.decode lib emailData)

/-- The body of the loop over `content` in `GetEmails`: the `Email` stored at the
item's index when the item is a `map[string]interface{}`, nothing for another item. -/
def GetEmails.item (lib : Library) (item : JSON) : Option Email :=
  match item with
  | .object members =>
    let emailData : DataMap := some members
    let email : Email :=
      { ID := getStringValue emailData "id",
        Subject := getStringValue emailData "subject",
        Body := getStringValue emailData "body",
        From := getStringValue emailData "from",
        To := [], Created := Time.zero,
        Read := getBoolValue emailData "read" }
    let email : Email :=
      match emailData.index "to" with
      | some (.array to_) =>
        { email with To := fillFrom asString to_ 0 (List.replicate to_.length "") }
      | _ => email
    let email : Email :=
      match emailData.index "createdAt" with
      | some (.str createdAtStr) =>
        match lib.parseRFC3339 createdAtStr with
        | some createdAt => { email with Created := createdAt }
        | none => email
      | _ => email
    some email
  | _ => none

/-- `GetEmails`, from the status check on. -/
def GetEmails (lib : Library) (resp : Response) : Except ClientError (List Email) :=
  if resp.StatusCode ≠ 200 then
    match unmarshalErrorResponse lib resp.Body with
    | some errorResp =>
      if errorResp.Message ≠ "" then
        .error (.api ("ошибка API: " ++ errorResp.ErrorCode ++ " - " ++ errorResp.Message
          ++ ", код: " ++ toString resp.StatusCode))
      else
        .error (.api ("ошибка API: " ++ resp.Body ++ ", код: " ++ toString resp.StatusCode))
    | none =>
      .error (.api ("ошибка API: " ++ resp.Body ++ ", код: " ++ toString resp.StatusCode))
  else
    match unmarshalMap lib resp.Body with
    | none => .error .unparsable
    | some emailsData =>
      match emailsData.index "content" with
      | some (.array content) =>
        .ok (fillFrom (GetEmails.item lib) content 0 (List.replicate content.length Email.zero))
      | _ => .ok []

end DefaultMailSlurpClient

/-- The text `text` contains `part` as a contiguous run of characters. -/
def Contains (text part : String) : Prop :=
  part.data <:+: text.data

/-- The result of `GetEmails` on a status-200 envelope as the specification words it:
one record per element of the `content` array, in order, an object element decoded as
`WaitForLatestEmail` decodes that object and any other element the zero record; empty
when `content` is missing or not an array. -/
def GetEmailsSpec (lib : Library) (members : List (String × JSON)) : List Email :=
  match lookupMember members "content" with
  | some (.array items) =>
    items.map (fun item =>
      match item with
      | .object itemMembers => DefaultMailSlurpClient.WaitForLatestEmail.decode lib (some itemMembers)
      | _ => Email.zero)
  | _ => []

/-! ### Sample responses

Response bodies used in the closed examples, and a `Library` that gives, for each of
them, the value `encoding/json` parses the text to (`sampleLibrary`); its `foldName`
lowers ASCII letters. -/

/-- An error envelope that carries an error code and no message:
`{"status":"error","errorCode":"PLAN_LIMIT_EXCEEDED","caseNumber":"7"}`. -/
def bodyNoMessage : String :=
  "\x7b\"status\":\"error\",\"errorCode\":\"PLAN_LIMIT_EXCEEDED\",\"caseNumber\":\"7\"\x7d"

/-- A plan-limit envelope whose message holds double quotes:
`{"errorCode":"PLAN_LIMIT_EXCEEDED","message":"limit \"free\""}`. -/
def bodyQuotedMessage : String :=
  "\x7b\"errorCode\":\"PLAN_LIMIT_EXCEEDED\",\"message\":\"limit \\\"free\\\"\"\x7d"

/-- A plan-limit envelope with a plain message:
`{"errorCode":"PLAN_LIMIT_EXCEEDED","message":"limit reached"}`. -/
def bodyPlainMessage : String :=
  "\x7b\"errorCode\":\"PLAN_LIMIT_EXCEEDED\",\"message\":\"limit reached\"\x7d"

/-- A message record with a mistyped `from`, a non-string recipient and a timestamp:
`{"id":"e1","subject":"Hi","from":7,"to":["a@x.io",5],"read":true,"createdAt":"2024-05-01T10:00:00Z"}`. -/
def bodyEmail : String :=
  "\x7b\"id\":\"e1\",\"subject\":\"Hi\",\"from\":7,\"to\":[\"a@x.io\",5],\"read\":true,\"createdAt\":\"2024-05-01T10:00:00Z\"\x7d"

/-- A page of messages with an object element and a number element:
`{"content":[{"id":"e1","to":["a@x.io"]},3],"totalElements":2}`. -/
def bodyPage : String :=
  "\x7b\"content\":[\x7b\"id\":\"e1\",\"to\":[\"a@x.io\"]\x7d,3],\"totalElements\":2\x7d"

/-- The members of the object `bodyEmail` denotes. -/
def membersEmail : List (String × JSON) :=
  [("id", .str "e1"), ("subject", .str "Hi"), ("from", .number "7"),
   ("to", .array [.str "a@x.io", .number "5"]), ("read", .bool true),
   ("createdAt", .str "2024-05-01T10:00:00Z")]

/-- The members of the object `bodyPage` denotes. -/
def membersPage : List (String × JSON) :=
  [("content", .array [.object [("id", .str "e1"), ("to", .array [.str "a@x.io"])],
      .number "3"]),
   ("totalElements", .number "2")]

/-- The value of a run of decimal digits. -/
def digitsValue (cs : List Char) : Nat :=
  cs.foldl (fun n c => 10 * n + (c.toNat - 48)) 0

/-- The least magnitude that `strconv.ParseFloat(·, 64)` rejects as out of range: half
way between the largest `float64`, `2^1024 - 2^971`, and `2^1024`, which is
`2^1024 - 2^970 = (2^54 - 1) * 2^970`. -/
def float64Limit : Nat := (2 ^ 54 - 1) * (2 ^ 194) ^ 5

/-- Whether the value of a JSON number literal (digits, an optional fraction, an
optional exponent) is in the range of a `float64`: its magnitude
`mantissa * 10 ^ shift` is below `float64Limit`. A value too small for a `float64` is
in range (it converts to zero). -/
def decimalFitsFloat64 (literal : String) : Bool :=
  let unsigned : List Char :=
    match literal.data with
    | c :: rest => if c = '-' then rest else c :: rest
    | [] => []
  let whole : List Char := unsigned.takeWhile Char.isDigit
  let afterWhole : List Char := unsigned.dropWhile Char.isDigit
  let fraction : List Char :=
    match afterWhole with
    | c :: rest => if c = '.' then rest.takeWhile Char.isDigit else []
    | [] => []
  let afterFraction : List Char :=
    match afterWhole with
    | c :: rest => if c = '.' then rest.dropWhile Char.isDigit else c :: rest
    | [] => []
  let exponent : Int :=
    match afterFraction with
    | _ :: sign :: rest =>
      if sign = '-' then -(digitsValue rest : Int)
      else if sign = '+' then (digitsValue rest : Int)
      else (digitsValue (sign :: rest) : Int)
    | _ => 0
  let mantissa : Nat := digitsValue (whole ++ fraction)
  let shift : Int := exponent - (fraction.length : Int)
  if mantissa = 0 then true
  else if 0 ≤ shift then
    (if 400 < shift then false else decide (mantissa * 10 ^ shift.toNat < float64Limit))
  else if ((whole ++ fraction).length : Int) ≤ -shift then true
  else decide (mantissa < float64Limit * 10 ^ (-shift).toNat)

/-- A library that knows the sample bodies and one timestamp (2024-05-01 10:00 UTC is
63850154400 seconds after the zero time). -/
def sampleLibrary : Library :=
  { jsonParse := fun body =>
      if body = bodyNoMessage then
        some (.object [("status", .str "error"), ("errorCode", .str "PLAN_LIMIT_EXCEEDED"),
          ("caseNumber", .str "7")])
      else if body = bodyQuotedMessage then
        some (.object [("errorCode", .str "PLAN_LIMIT_EXCEEDED"),
          ("message", .str "limit \"free\"")])
      else if body = bodyPlainMessage then
        some (.object [("errorCode", .str "PLAN_LIMIT_EXCEEDED"),
          ("message", .str "limit reached")])
      else if body = bodyEmail then some (.object membersEmail)
      else if body = bodyPage then some (.object membersPage)
      else none,
    foldName := fun s => String.mk (s.data.map Char.toLower),
    parseRFC3339 := fun s =>
      if s = "2024-05-01T10:00:00Z" then some ⟨63850154400000000000⟩ else none,
    fitsFloat64 := decimalFitsFloat64 }

/-! ### The request body of `SendEmail` and JSON text

`SendEmail` builds its request body with `fmt.Sprintf` from a raw string literal.
`parseJSON` is the grammar of JSON text (RFC 8259) as a parser, with the nesting limit
of `encoding/json`, used to say which JSON value a text is. -/

/-- The call `fmt.Sprintf(format, args...)` for string arguments and a format whose
only verb is `%s`: each `%s` is replaced by the next argument (by `%!s(MISSING)` when
the arguments have run out), every other character is copied. -/
def sprintf : List Char → List String → List Char
  | [], _ => []
  | [c], _ => [c]
  | c :: v :: rest, args =>
    if c = '%' ∧ v = 's' then
      match args with
      | a :: args2 => a.data ++ sprintf rest args2
      | [] => "%!s(MISSING)".data ++ sprintf rest []
    else c :: sprintf (v :: rest) args

/-- The raw string literal of `SendEmail`, with its line breaks and tabs. -/
def DefaultMailSlurpClient.SendEmail.format : String :=
  "\x7b\n\t\t\"to\": [\"%s\"],\n\t\t\"subject\": \"%s\",\n\t\t\"body\": \"%s\"\n\t\x7d"

/-- The request body of `SendEmail`:
`fmt.Sprintf(format, to, subject, body)`. -/
def DefaultMailSlurpClient.SendEmail.payload (toAddr subject body : String) : String :=
  String.mk (sprintf DefaultMailSlurpClient.SendEmail.format.data [toAddr, subject, body])

/-- JSON whitespace. -/
def isWhitespace (c : Char) : Bool :=
  c = ' ' || c = '\n' || c = '\r' || c = '\t'

/-- Drops leading whitespace. -/
def skipWhitespace : List Char → List Char
  | [] => []
  | c :: cs => if isWhitespace c then skipWhitespace cs else c :: cs

/-- The value of a hexadecimal digit. -/
def hexDigit (c : Char) : Option Nat :=
  if '0' ≤ c ∧ c ≤ '9' then some (c.toNat - 48)
  else if 'a' ≤ c ∧ c ≤ 'f' then some (c.toNat - 87)
  else if 'A' ≤ c ∧ c ≤ 'F' then some (c.toNat - 55)
  else none

/-- The value of four hexadecimal digits. -/
def hex4 (a b c d : Char) : Option Nat :=
  match hexDigit a, hexDigit b, hexDigit c, hexDigit d with
  | some w, some x, some y, some z => some (((w * 16 + x) * 16 + y) * 16 + z)
  | _, _, _, _ => none

/-- The character a two-character escape `\c` stands for. -/
def simpleEscape (c : Char) : Option Char :=
  if c = '"' then some '"'
  else if c = '\\' then some '\\'
  else if c = '/' then some '/'
  else if c = 'b' then some (Char.ofNat 8)
  else if c = 'f' then some (Char.ofNat 12)
  else if c = 'n' then some '\n'
  else if c = 'r' then some '\r'
  else if c = 't' then some '\t'
  else none

/-- The character of a `\uXXXX` escape with value `n` that is not the first half of a
surrogate pair: a lone surrogate decodes to U+FFFD. -/
def unitChar (n : Nat) : Char :=
  if 0xD800 ≤ n ∧ n < 0xE000 then Char.ofNat 0xFFFD else Char.ofNat n

/-- Reads a string after its opening quote: the decoded characters up to the closing
quote (added to `acc`) and the text after it. A raw control character, a bad escape or
the end of the text before the closing quote is an error. Every step reads at least one
character, so fuel above the length of the text is never used up. -/
def scanStringAux : Nat → List Char → List Char → Option (String × List Char)
  | 0, _, _ => none
  | _ + 1, [], _ => none
  | fuel + 1, c :: cs, acc =>
    if c = '"' then some (String.mk acc, cs)
    else if c = '\\' then
      match cs with
      | [] => none
      | e :: rest =>
        if e = 'u' then
          match rest with
          | h1 :: h2 :: h3 :: h4 :: rest2 =>
            match hex4 h1 h2 h3 h4 with
            | none => none
            | some hi =>
              match rest2 with
              | b :: u :: l1 :: l2 :: l3 :: l4 :: rest3 =>
                match hex4 l1 l2 l3 l4 with
                | some lo =>
                  if b = '\\' ∧ u = 'u' ∧ 0xD800 ≤ hi ∧ hi < 0xDC00 ∧ 0xDC00 ≤ lo ∧ lo < 0xE000 then
                    scanStringAux fuel rest3
                      (acc ++ [Char.ofNat (0x10000 + (hi - 0xD800) * 0x400 + (lo - 0xDC00))])
                  else scanStringAux fuel rest2 (acc ++ [unitChar hi])
                | none => scanStringAux fuel rest2 (acc ++ [unitChar hi])
              | _ => scanStringAux fuel rest2 (acc ++ [unitChar hi])
          | _ => none
        else
          match simpleEscape e with
          | some ch => scanStringAux fuel rest (acc ++ [ch])
          | none => none
    else if c.toNat < 0x20 then none
    else scanStringAux fuel cs (acc ++ [c])

/-- Reads a string after its opening quote. -/
def scanString (cs : List Char) : Option (String × List Char) :=
  scanStringAux (cs.length + 1) cs []

/-- Splits off the leading decimal digits. -/
def takeDigits : List Char → List Char × List Char
  | [] => ([], [])
  | c :: cs =>
    if '0' ≤ c ∧ c ≤ '9' then ((takeDigits cs).1.cons c, (takeDigits cs).2) else ([], c :: cs)

/-- Reads a number: its literal and the text after it. -/
def scanNumber (cs : List Char) : Option (String × List Char) :=
  let signed : List Char × List Char :=
    match cs with
    | c :: rest => if c = '-' then ([c], rest) else ([], cs)
    | [] => ([], [])
  let whole : Option (List Char × List Char) :=
    match signed.2 with
    | c :: rest =>
      if c = '0' then some ([c], rest)
      else if '1' ≤ c ∧ c ≤ '9' then some ((takeDigits rest).1.cons c, (takeDigits rest).2)
      else none
    | [] => none
  match whole with
  | none => none
  | some (intDigits, r1) =>
    let frac : Option (List Char × List Char) :=
      match r1 with
      | c :: rest =>
        if c = '.' then
          (if (takeDigits rest).1 = [] then none
           else some ((takeDigits rest).1.cons c, (takeDigits rest).2))
        else some ([], r1)
      | [] => some ([], [])
    match frac with
    | none => none
    | some (fracChars, r2) =>
      let expo : Option (List Char × List Char) :=
        match r2 with
        | c :: rest =>
          if c = 'e' ∨ c = 'E' then
            let sgn : List Char × List Char :=
              match rest with
              | d :: rest2 => if d = '+' ∨ d = '-' then ([d], rest2) else ([], rest)
              | [] => ([], [])
            if (takeDigits sgn.2).1 = [] then none
            else some (c :: sgn.1 ++ (takeDigits sgn.2).1, (takeDigits sgn.2).2)
          else some ([], r2)
        | [] => some ([], [])
      match expo with
      | none => none
      | some (expChars, r3) =>
        some (String.mk (signed.1 ++ intDigits ++ fracChars ++ expChars), r3)

/-- What the parser is reading: a value, the rest of an array after `acc`, or the rest
of an object after `acc`. -/
inductive ParseMode where
  | value
  | elements (acc : List JSON)
  | members (acc : List (String × JSON))

/-- The deepest nesting of arrays and objects `encoding/json` accepts. -/
def maxNestingDepth : Nat := 10000

/-- The recursive-descent parser; `fuel` bounds the depth of the recursion and `depth`
is the number of arrays and objects open around the current position (text nested
deeper than `maxNestingDepth` is rejected). Returns the value read and the text after
it. -/
def parseAux : Nat → Nat → ParseMode → List Char → Option (JSON × List Char)
  | 0, _, _, _ => none
  | fuel + 1, depth, .value, cs =>
    match skipWhitespace cs with
    | [] => none
    | c :: rest =>
      if c = '\x7b' then
        if maxNestingDepth ≤ depth then none
        else
          match skipWhitespace rest with
          | d :: rest2 =>
            if d = '\x7d' then some (.object [], rest2)
            else parseAux fuel (depth + 1) (.members []) rest
          | [] => none
      else if c = '[' then
        if maxNestingDepth ≤ depth then none
        else
          match skipWhitespace rest with
          | d :: rest2 =>
            if d = ']' then some (.array [], rest2)
            else parseAux fuel (depth + 1) (.elements []) rest
          | [] => none
      else if c = '"' then
        match scanString rest with
        | some (s, rest2) => some (.str s, rest2)
        | none => none
      else if "null".data.isPrefixOf (c :: rest) then some (.null, (c :: rest).drop 4)
      else if "true".data.isPrefixOf (c :: rest) then some (.bool true, (c :: rest).drop 4)
      else if "false".data.isPrefixOf (c :: rest) then some (.bool false, (c :: rest).drop 5)
      else
        match scanNumber (c :: rest) with
        | some (literal, rest2) => some (.number literal, rest2)
        | none => none
  | fuel + 1, depth, .elements acc, cs =>
    match parseAux fuel depth .value cs with
    | none => none
    | some (v, rest) =>
      match skipWhitespace rest with
      | d :: rest2 =>
        if d = ',' then parseAux fuel depth (.elements (acc ++ [v])) rest2
        else if d = ']' then some (.array (acc ++ [v]), rest2)
        else none
      | [] => none
  | fuel + 1, depth, .members acc, cs =>
    match skipWhitespace cs with
    | q :: rest =>
      if q = '"' then
        match scanString rest with
        | none => none
        | some (key, rest2) =>
          match skipWhitespace rest2 with
          | colon :: rest3 =>
            if colon = ':' then
              match parseAux fuel depth .value rest3 with
              | none => none
              | some (v, rest4) =>
                match skipWhitespace rest4 with
                | d :: rest5 =>
                  if d = ',' then parseAux fuel depth (.members (acc ++ [(key, v)])) rest5
                  else if d = '\x7d' then some (.object (acc ++ [(key, v)]), rest5)
                  else none
                | [] => none
            else none
          | [] => none
      else none
    | [] => none

/-- The JSON value a text is, `none` when the text is not JSON (or is nested deeper
than `maxNestingDepth`): one value, with whitespace allowed around it and nothing else
after it. -/
def parseJSON (text : String) : Option JSON :=
  match parseAux (2 * text.length + 2) 0 .value text.data with
  | some (v, rest) => if skipWhitespace rest = [] then some v else none
  | none => none

/-- The string holds no double quote, no backslash and no control character (a
character below U+0020): the characters JSON text cannot hold raw inside a string. -/
def PlainText (s : String) : Prop :=
  ∀ c ∈ s.data, c ≠ '"' ∧ c ≠ '\\' ∧ 0x20 ≤ c.toNat

/-- The library of the sample responses with the JSON grammar as its parser; its
`fitsFloat64` is the exact range check `decimalFitsFloat64`. -/
def grammarLibrary : Library :=
  { sampleLibrary with jsonParse := parseJSON }

/-- A list of two mailbox records, the second with a timestamp that is not RFC 3339:
`[{"id":"i1","emailAddress":"a@x.io","createdAt":"2024-05-01T10:00:00Z","name":"first"},
{"id":"i2","emailAddress":"b@x.io","createdAt":"yesterday","description":"second"}]`. -/
def bodyInboxes : String :=
  "[\x7b\"id\":\"i1\",\"emailAddress\":\"a@x.io\",\"createdAt\":\"2024-05-01T10:00:00Z\",\"name\":\"first\"\x7d,\n\x7b\"id\":\"i2\",\"emailAddress\":\"b@x.io\",\"createdAt\":\"yesterday\",\"description\":\"second\"\x7d]"

/-! ### The example program (`mailslurp_example.go`) -/

/-- The condition of the plan-limit `if` of `main`, on the text `err.Error()` of the
error `CreateInbox` returned. -/
def isPlanLimitText (errText : String) : Bool :=
  errText = "ошибка API: ограничение бесплатного плана" ||
    errText = "ошибка API: PLAN_LIMIT_EXCEEDED"

/-- A message record with a number no `float64` holds:
`{"id":"e1","size":1e999}`. -/
def bodyHugeNumber : String :=
  "\x7b\"id\":\"e1\",\"size\":1e999\x7d"

/-- A page of one message whose total is a number no `float64` holds:
`{"content":[{"id":"e1"}],"totalElements":1e999}`. -/
def bodyPageHugeTotal : String :=
  "\x7b\"content\":[\x7b\"id\":\"e1\"\x7d],\"totalElements\":1e999\x7d"

/-- The same page with the total `1`:
`{"content":[{"id":"e1"}],"totalElements":1}`. -/
def bodyPageSmallTotal : String :=
  "\x7b\"content\":[\x7b\"id\":\"e1\"\x7d],\"totalElements\":1\x7d"

/-- The fake that `TestMockMailSlurpClient` builds (`mailslurp_test.go`, with the two
clock readings as arguments): one mailbox and one message for it. -/
def MockMailSlurpClient.testFake (t₀ t₁ : Time) : MockMailSlurpClient :=
  { inboxes := [{ ID := "mock-inbox-id", EmailAddress := "mock@example.com", CreatedAt := t₀,
                  Name := "", Description := "" }],
    emails := some (fun k =>
      if k = "mock-inbox-id" then
        some [{ ID := "mock-email-id", Subject := "Mock Subject", Body := "Mock Body",
                From := "sender@example.com", To := ["mock@example.com"], Created := t₁,
                Read := false }]
      else none) }

/-- The fake after `CreateInbox`, `CreateInbox`, `DeleteInbox("mock-inbox-1")`, starting
from the empty fake. -/
def MockMailSlurpClient.afterDelete : MockMailSlurpClient :=
  MockMailSlurpClient.run MockMailSlurpClient.empty
    [.createInbox ⟨1⟩, .createInbox ⟨2⟩, .deleteInbox "mock-inbox-1"]

/-! ## Theorems: the in-memory fake -/

namespace MockMailSlurpClient

theorem getEmails_eq (m : MockMailSlurpClient) (inboxID : String) :
    m.GetEmails inboxID = .ok (m.emails.getD inboxID) := by
  unfold GetEmails EmailMap.getD
  cases m.emails.get inboxID <;> rfl

theorem sendEmail_getD_self (m : MockMailSlurpClient) (inboxID toAddr subject body : String)
    (now : Time) :
    (m.SendEmail inboxID toAddr subject body now).1.emails.getD inboxID
      = m.emails.getD inboxID ++
        [{ ID := "mock-email-" ++ toString ((m.emails.getD inboxID).length + 1),
           Subject := subject, Body := body, From := "sender@example.com", To := [toAddr],
           Created := now, Read := false }] := by
  cases h : m.emails <;> simp [SendEmail, EmailMap.getD, EmailMap.get, EmailMap.set, h]

theorem sendEmail_get_other (m : MockMailSlurpClient) (inboxID toAddr subject body : String)
    (now : Time) (other : String) (h : other ≠ inboxID) :
    (m.SendEmail inboxID toAddr subject body now).1.emails.get other = m.emails.get other := by
  cases h' : m.emails <;> simp [SendEmail, EmailMap.get, EmailMap.set, h', h]

theorem run_cons (m : MockMailSlurpClient) (c : Call) (cs : List Call) :
    run m (c :: cs) = run (step m c) cs := rfl

theorem run_append (m : MockMailSlurpClient) (cs ds : List Call) :
    run m (cs ++ ds) = run (run m cs) ds := by
  simp [run, List.foldl_append]

theorem run_sendCalls_getD (inboxID : String) (sends : List SendArgs) :
    ∀ m : MockMailSlurpClient,
      (run m (sendCalls inboxID sends)).emails.getD inboxID
        = m.emails.getD inboxID ++ sentRecords (m.emails.getD inboxID).length sends := by
  induction sends with
  | nil => intro m; simp [sendCalls, run, sentRecords]
  | cons a rest ih =>
    intro m
    have h := ih (step m (Call.sendEmail inboxID a.toAddr a.subject a.body a.now))
    simp only [sendCalls, List.map_cons, run_cons] at h ⊢
    rw [h]
    simp [step, sendEmail_getD_self, sentRecords, sentRecord]

theorem sentRecords_length (sends : List SendArgs) :
    ∀ k : Nat, (sentRecords k sends).length = sends.length := by
  induction sends with
  | nil => intro k; rfl
  | cons a rest ih => intro k; simp [sentRecords, ih]

theorem sentRecords_getElem? (sends : List SendArgs) :
    ∀ (k i : Nat), (sentRecords k sends)[i]? = (sends[i]?).map (sentRecord (k + i)) := by
  induction sends with
  | nil => intro k i; simp [sentRecords]
  | cons a rest ih =>
    intro k i
    cases i with
    | zero => simp [sentRecords]
    | succ i =>
      have e : k + 1 + i = k + (i + 1) := by omega
      simp only [sentRecords, List.getElem?_cons_succ, ih, e]

theorem sentRecords_append_singleton (sends : List SendArgs) (a : SendArgs) :
    ∀ k : Nat, sentRecords k (sends ++ [a])
      = sentRecords k sends ++ [sentRecord (k + sends.length) a] := by
  induction sends with
  | nil => intro k; simp [sentRecords]
  | cons b rest ih =>
    intro k
    have e : k + 1 + rest.length = k + (rest.length + 1) := by omega
    simp [sentRecords, ih, e]

theorem sentRecords_getLast? (sends : List SendArgs) (hs : sends ≠ []) (k : Nat) :
    (sentRecords k sends).getLast?
      = some (sentRecord (k + (sends.length - 1)) (sends.getLast hs)) := by
  have e : sentRecords k sends = sentRecords k (sends.dropLast ++ [sends.getLast hs]) := by
    rw [List.dropLast_append_getLast hs]
  rw [e, sentRecords_append_singleton]
  simp

theorem waitForLatestEmail_of_ne_nil (m : MockMailSlurpClient) (inboxID : String)
    (timeout : Int) (h : m.emails.getD inboxID ≠ []) :
    m.WaitForLatestEmail inboxID timeout = .ok ((m.emails.getD inboxID).getLast h) := by
  unfold EmailMap.getD at h
  unfold WaitForLatestEmail
  cases hg : m.emails.get inboxID with
  | none => simp [hg] at h
  | some emails =>
    have hne : emails ≠ [] := by simpa [hg] using h
    have hlen : 0 < emails.length := List.length_pos.mpr hne
    simp only [hlen, dite_true]
    simp [EmailMap.getD, hg, List.getLast_eq_getElem]

theorem waitForLatestEmail_error_iff (m : MockMailSlurpClient) (inboxID : String)
    (timeout : Int) (msg : String) :
    m.WaitForLatestEmail inboxID timeout = .error msg ↔
      (msg = "письма не найдены для почтового ящика с ID " ++ inboxID ∧
        (m.emails.get inboxID = none ∨ m.emails.get inboxID = some [])) := by
  unfold WaitForLatestEmail
  cases hg : m.emails.get inboxID with
  | none => simp [eq_comm]
  | some emails =>
    by_cases hlen : 0 < emails.length
    · have hne : emails ≠ [] := List.length_pos.mp hlen
      simp [hlen, hne]
    · have : emails = [] := by
        cases emails with
        | nil => rfl
        | cons a l => simp at hlen
      subst this
      simp [eq_comm]

theorem getLast_of_append {α : Type} (l : List α) (hne : l ≠ []) (l₁ l₂ : List α) (x : α)
    (hl : l = l₁ ++ l₂) (h₂ : l₂ ≠ []) (hx : l₂.getLast? = some x) : l.getLast hne = x := by
  subst hl
  have h1 := List.getLast?_eq_getLast _ hne
  rw [List.getLast?_append_of_ne_nil _ h₂, hx] at h1
  exact (Option.some.inj h1).symm

theorem findInbox_eq_none_iff (inboxID : String) (l : List Inbox) :
    ∀ i : Nat, findInbox inboxID l i = none ↔ ∀ inbox ∈ l, inbox.ID ≠ inboxID := by
  induction l with
  | nil => intro i; simp [findInbox]
  | cons a rest ih =>
    intro i
    by_cases h : a.ID = inboxID
    · simp [findInbox, h]
    · simp [findInbox, h, ih]

/-- A `DeleteInbox` that succeeds leaves no message entry for the identifier:
`GetEmails` then returns the empty list and `WaitForLatestEmail` the not-found error. -/
theorem deleteInbox_ok_clears_messages (m : MockMailSlurpClient) (inboxID : String)
    (timeout : Int) (h : (m.DeleteInbox inboxID).2 = .ok ()) :
    (m.DeleteInbox inboxID).1.GetEmails inboxID = .ok [] ∧
    (m.DeleteInbox inboxID).1.WaitForLatestEmail inboxID timeout
      = .error ("письма не найдены для почтового ящика с ID " ++ inboxID) := by
  unfold DeleteInbox at h ⊢
  cases hf : findInbox inboxID m.inboxes 0 with
  | none => simp [hf] at h
  | some i =>
    have hget : (m.emails.delete inboxID).get inboxID = none := by
      cases hm : m.emails <;> simp [EmailMap.delete, EmailMap.get]
    simp [GetEmails, WaitForLatestEmail, hget]

end MockMailSlurpClient

/-- C1: on the fake, after any sequence of `N` (possibly zero) `SendEmail` calls to one
mailbox identifier that held no messages beforehand (no entry, nil map or empty list),
`GetEmails` for that identifier returns without error exactly `N` records, and the
`i`-th record carries the subject, body and recipient of the `i`-th call. -/
theorem mock_getEmails_after_sends (m : MockMailSlurpClient) (inboxID : String)
    (sends : List MockMailSlurpClient.SendArgs) (h : m.emails.getD inboxID = []) :
    ∃ emails : List Email,
      (MockMailSlurpClient.run m (MockMailSlurpClient.sendCalls inboxID sends)).GetEmails inboxID
        = .ok emails ∧
      emails.length = sends.length ∧
      ∀ (i : Nat) (hi : i < sends.length), ∃ e : Email,
        emails[i]? = some e ∧
        e.Subject = (sends.get ⟨i, hi⟩).subject ∧
        e.Body = (sends.get ⟨i, hi⟩).body ∧
        e.To = [(sends.get ⟨i, hi⟩).toAddr] := by
  refine ⟨MockMailSlurpClient.sentRecords 0 sends, ?_, ?_, ?_⟩
  · rw [MockMailSlurpClient.getEmails_eq, MockMailSlurpClient.run_sendCalls_getD, h]
    rfl
  · exact MockMailSlurpClient.sentRecords_length sends 0
  · intro i hi
    refine ⟨MockMailSlurpClient.sentRecord i (sends.get ⟨i, hi⟩), ?_, rfl, rfl, rfl⟩
    rw [MockMailSlurpClient.sentRecords_getElem?]
    simp [List.getElem?_eq_getElem hi]

/-- Witness for C1: two sends to a fresh identifier of the empty fake. -/
theorem mock_getEmails_after_sends_witness :
    ∃ emails : List Email,
      (MockMailSlurpClient.run MockMailSlurpClient.empty
        (MockMailSlurpClient.sendCalls "box"
          [⟨"a@x.io", "s1", "b1", ⟨1⟩⟩, ⟨"b@x.io", "s2", "b2", ⟨2⟩⟩])).GetEmails "box"
        = .ok emails ∧
      emails.length = 2 ∧
      ∀ (i : Nat) (hi : i < 2), ∃ e : Email,
        emails[i]? = some e ∧
        e.Subject = (([⟨"a@x.io", "s1", "b1", ⟨1⟩⟩, ⟨"b@x.io", "s2", "b2", ⟨2⟩⟩] :
          List MockMailSlurpClient.SendArgs).get ⟨i, hi⟩).subject ∧
        e.Body = (([⟨"a@x.io", "s1", "b1", ⟨1⟩⟩, ⟨"b@x.io", "s2", "b2", ⟨2⟩⟩] :
          List MockMailSlurpClient.SendArgs).get ⟨i, hi⟩).body ∧
        e.To = [(([⟨"a@x.io", "s1", "b1", ⟨1⟩⟩, ⟨"b@x.io", "s2", "b2", ⟨2⟩⟩] :
          List MockMailSlurpClient.SendArgs).get ⟨i, hi⟩).toAddr] :=
  mock_getEmails_after_sends MockMailSlurpClient.empty "box"
    [⟨"a@x.io", "s1", "b1", ⟨1⟩⟩, ⟨"b@x.io", "s2", "b2", ⟨2⟩⟩] rfl

/-- C2: on the fake, `WaitForLatestEmail` returns the last element of the identifier's
current message list when that list is non-empty, fails with the not-found error exactly
when the list is empty or absent (and with no other error), gives the same result for
every timeout, and after `N ≥ 1` sends to the identifier returns the record of the
`N`-th send. -/
theorem mock_waitForLatestEmail_last (m : MockMailSlurpClient) (inboxID : String)
    (timeout : Int) :
    (∀ h : m.emails.getD inboxID ≠ [],
      m.WaitForLatestEmail inboxID timeout = .ok ((m.emails.getD inboxID).getLast h)) ∧
    (m.WaitForLatestEmail inboxID timeout
        = .error ("письма не найдены для почтового ящика с ID " ++ inboxID)
      ↔ (m.emails.get inboxID = none ∨ m.emails.get inboxID = some [])) ∧
    (∀ msg : String, m.WaitForLatestEmail inboxID timeout = .error msg →
      msg = "письма не найдены для почтового ящика с ID " ++ inboxID) ∧
    (∀ other : Int,
      m.WaitForLatestEmail inboxID other = m.WaitForLatestEmail inboxID timeout) ∧
    (∀ (sends : List MockMailSlurpClient.SendArgs) (hs : sends ≠ []), ∃ e : Email,
      (MockMailSlurpClient.run m
        (MockMailSlurpClient.sendCalls inboxID sends)).WaitForLatestEmail inboxID timeout
        = .ok e ∧
      e.Subject = (sends.getLast hs).subject ∧ e.Body = (sends.getLast hs).body ∧
      e.To = [(sends.getLast hs).toAddr]) := by
  refine ⟨fun h => MockMailSlurpClient.waitForLatestEmail_of_ne_nil m inboxID timeout h,
    ?_, ?_, fun _ => rfl, ?_⟩
  · rw [MockMailSlurpClient.waitForLatestEmail_error_iff]
    simp
  · intro msg h
    exact ((MockMailSlurpClient.waitForLatestEmail_error_iff m inboxID timeout msg).mp h).1
  · intro sends hs
    have hrec := MockMailSlurpClient.sentRecords_getLast? sends hs
      (m.emails.getD inboxID).length
    have hR : MockMailSlurpClient.sentRecords (m.emails.getD inboxID).length sends ≠ [] := by
      intro h0
      rw [h0] at hrec
      simp at hrec
    have hL := MockMailSlurpClient.run_sendCalls_getD inboxID sends m
    have hne : (MockMailSlurpClient.run m
        (MockMailSlurpClient.sendCalls inboxID sends)).emails.getD inboxID ≠ [] := by
      rw [hL]
      simp [hR]
    refine ⟨_, MockMailSlurpClient.waitForLatestEmail_of_ne_nil _ inboxID timeout hne, ?_⟩
    have hlast : ((MockMailSlurpClient.run m
        (MockMailSlurpClient.sendCalls inboxID sends)).emails.getD inboxID).getLast hne
        = MockMailSlurpClient.sentRecord
            ((m.emails.getD inboxID).length + (sends.length - 1)) (sends.getLast hs) := by
      exact MockMailSlurpClient.getLast_of_append _ hne _ _ _ hL hR hrec
    rw [hlast]
    exact ⟨rfl, rfl, rfl⟩

/-- Witness for C2: the fake after two sends to `box`, then one more send. -/
theorem mock_waitForLatestEmail_last_witness :
    (MockMailSlurpClient.run MockMailSlurpClient.empty
      (MockMailSlurpClient.sendCalls "box"
        [⟨"a@x.io", "s1", "b1", ⟨1⟩⟩, ⟨"b@x.io", "s2", "b2", ⟨2⟩⟩])).WaitForLatestEmail "box" 30000
      = .ok { ID := "mock-email-2", Subject := "s2", Body := "b2",
              From := "sender@example.com", To := ["b@x.io"], Created := ⟨2⟩, Read := false } ∧
    ∃ e : Email,
      (MockMailSlurpClient.run
        (MockMailSlurpClient.run MockMailSlurpClient.empty
          (MockMailSlurpClient.sendCalls "box"
            [⟨"a@x.io", "s1", "b1", ⟨1⟩⟩, ⟨"b@x.io", "s2", "b2", ⟨2⟩⟩]))
        (MockMailSlurpClient.sendCalls "box" [⟨"c@x.io", "s3", "b3", ⟨3⟩⟩])).WaitForLatestEmail
          "box" 30000 = .ok e ∧
      e.Subject = "s3" ∧ e.Body = "b3" ∧ e.To = ["c@x.io"] :=
  ⟨((mock_waitForLatestEmail_last
      (MockMailSlurpClient.run MockMailSlurpClient.empty
        (MockMailSlurpClient.sendCalls "box"
          [⟨"a@x.io", "s1", "b1", ⟨1⟩⟩, ⟨"b@x.io", "s2", "b2", ⟨2⟩⟩])) "box" 30000).1
      (by decide)).trans rfl,
   (mock_waitForLatestEmail_last
      (MockMailSlurpClient.run MockMailSlurpClient.empty
        (MockMailSlurpClient.sendCalls "box"
          [⟨"a@x.io", "s1", "b1", ⟨1⟩⟩, ⟨"b@x.io", "s2", "b2", ⟨2⟩⟩])) "box" 30000).2.2.2.2
      [⟨"c@x.io", "s3", "b3", ⟨3⟩⟩] (by simp)⟩

/-- C3 (evaluation at the failing input): in the reachable state made by `CreateInbox`,
`CreateInbox`, `DeleteInbox("mock-inbox-1")`, `CreateInbox`, two mailboxes carry the
identifier `mock-inbox-2`; `DeleteInbox("mock-inbox-2")` succeeds there and `GetInboxes`
afterwards still returns a mailbox with identifier `mock-inbox-2`. -/
theorem mock_deleteInbox_leaves_duplicate :
    MockMailSlurpClient.Reachable MockMailSlurpClient.afterRecreate ∧
    (MockMailSlurpClient.afterRecreate.DeleteInbox "mock-inbox-2").2 = .ok () ∧
    (MockMailSlurpClient.afterRecreate.DeleteInbox "mock-inbox-2").1.GetInboxes
      = .ok [{ ID := "mock-inbox-2", EmailAddress := "mock2@example.com", CreatedAt := ⟨3⟩,
               Name := "", Description := "" }] :=
  ⟨⟨_, rfl⟩, rfl, rfl⟩

/-- C4: on the fake, `DeleteInbox(id)` fails with the not-found error exactly when no
mailbox of the mailbox list has identifier `id`; it fails with no other error, and when
it fails the fake (mailbox list and every message list) is unchanged. -/
theorem mock_deleteInbox_not_found (m : MockMailSlurpClient) (inboxID : String) :
    ((m.DeleteInbox inboxID).2 = .error ("почтовый ящик с ID " ++ inboxID ++ " не найден")
      ↔ ∀ inbox ∈ m.inboxes, inbox.ID ≠ inboxID) ∧
    (∀ msg : String, (m.DeleteInbox inboxID).2 = .error msg →
      msg = "почтовый ящик с ID " ++ inboxID ++ " не найден") ∧
    ((∀ inbox ∈ m.inboxes, inbox.ID ≠ inboxID) → (m.DeleteInbox inboxID).1 = m) := by
  unfold MockMailSlurpClient.DeleteInbox
  cases h : MockMailSlurpClient.findInbox inboxID m.inboxes 0 with
  | none =>
    have h' := (MockMailSlurpClient.findInbox_eq_none_iff inboxID m.inboxes 0).mp h
    refine ⟨⟨fun _ => h', fun _ => rfl⟩, ?_, fun _ => rfl⟩
    intro msg hm
    simp only [Except.error.injEq] at hm
    exact hm.symm
  | some i =>
    have h' : ¬ ∀ inbox ∈ m.inboxes, inbox.ID ≠ inboxID := by
      intro hall
      rw [(MockMailSlurpClient.findInbox_eq_none_iff inboxID m.inboxes 0).mpr hall] at h
      cases h
    refine ⟨⟨fun hc => (by cases hc), fun hall => absurd hall h'⟩, ?_,
      fun hall => absurd hall h'⟩
    intro msg hm
    cases hm

/-- Witness for C4: deleting an identifier the fake does not hold. -/
theorem mock_deleteInbox_not_found_witness :
    (MockMailSlurpClient.afterRecreate.DeleteInbox "mock-inbox-1").1
      = MockMailSlurpClient.afterRecreate :=
  (mock_deleteInbox_not_found MockMailSlurpClient.afterRecreate "mock-inbox-1").2.2
    (by decide)

/-- C5: on the fake holding `n` mailboxes, `CreateInbox` never fails, returns a mailbox
with identifier `mock-inbox-<n+1>` and address `mock<n+1>@example.com`, appends it at
the end of the mailbox list (so `GetInboxes` then has `n+1` entries, the first `n`
unchanged), and leaves the message map unchanged. -/
theorem mock_createInbox_appends (m : MockMailSlurpClient) (now : Time) :
    ∃ inbox : Inbox,
      (m.CreateInbox now).2 = .ok inbox ∧
      inbox.ID = "mock-inbox-" ++ toString (m.inboxes.length + 1) ∧
      inbox.EmailAddress = "mock" ++ toString (m.inboxes.length + 1) ++ "@example.com" ∧
      (m.CreateInbox now).1.GetInboxes = .ok (m.inboxes ++ [inbox]) ∧
      (m.inboxes ++ [inbox]).length = m.inboxes.length + 1 ∧
      (m.inboxes ++ [inbox]).take m.inboxes.length = m.inboxes ∧
      (m.CreateInbox now).1.emails = m.emails := by
  refine ⟨_, rfl, rfl, rfl, rfl, ?_, ?_, rfl⟩
  · simp
  · simp

/-- C6: `SendEmail` on the fake never fails, whatever the state (the message map may
be nil). With `old` the identifier's message list before the call, read off the map
itself (empty when the map is nil or has no entry), the map afterwards is non-nil and
its entry for the identifier is `old` followed by exactly one record, with identifier
`mock-email-<k+1>` (`k` the length of `old`), the given subject and body, recipients
`[to]` and sender `sender@example.com`; the entries of all other identifiers and the
mailbox list are unchanged; `GetEmails` returns `old` before and the longer list after. -/
theorem mock_sendEmail_appends_one (m : MockMailSlurpClient)
    (inboxID toAddr subject body : String) (now : Time) (old : List Email)
    (hold : old = match m.emails with
      | none => []
      | some f =>
        match f inboxID with
        | none => []
        | some emails => emails) :
    (m.SendEmail inboxID toAddr subject body now).2 = .ok () ∧
    (∃ g : String → Option (List Email),
      (m.SendEmail inboxID toAddr subject body now).1.emails = some g ∧
      g inboxID = some (old ++
        [{ ID := "mock-email-" ++ toString (old.length + 1), Subject := subject,
           Body := body, From := "sender@example.com", To := [toAddr], Created := now,
           Read := false }]) ∧
      ∀ other : String, other ≠ inboxID →
        g other = match m.emails with
          | none => none
          | some f => f other) ∧
    m.GetEmails inboxID = .ok old ∧
    (m.SendEmail inboxID toAddr subject body now).1.GetEmails inboxID
      = .ok (old ++
        [{ ID := "mock-email-" ++ toString (old.length + 1), Subject := subject,
           Body := body, From := "sender@example.com", To := [toAddr], Created := now,
           Read := false }]) ∧
    (m.SendEmail inboxID toAddr subject body now).1.inboxes = m.inboxes := by
  subst hold
  obtain ⟨inboxes, emails⟩ := m
  cases emails with
  | none =>
    refine ⟨rfl, ⟨_, rfl, ?_, ?_⟩, rfl, ?_, rfl⟩
    · simp [EmailMap.set, EmailMap.getD, EmailMap.get]
    · intro other hne
      simp [EmailMap.set, hne]
    · simp [MockMailSlurpClient.GetEmails, MockMailSlurpClient.SendEmail, EmailMap.set,
        EmailMap.getD, EmailMap.get]
  | some f =>
    cases hf : f inboxID with
    | none =>
      refine ⟨rfl, ⟨_, rfl, ?_, ?_⟩, ?_, ?_, rfl⟩
      · simp [EmailMap.set, EmailMap.getD, EmailMap.get, hf]
      · intro other hne
        simp [EmailMap.set, hne]
      · simp [MockMailSlurpClient.GetEmails, EmailMap.get, hf]
      · simp [MockMailSlurpClient.GetEmails, MockMailSlurpClient.SendEmail, EmailMap.set,
          EmailMap.getD, EmailMap.get, hf]
    | some l =>
      refine ⟨rfl, ⟨_, rfl, ?_, ?_⟩, ?_, ?_, rfl⟩
      · simp [EmailMap.set, EmailMap.getD, EmailMap.get, hf]
      · intro other hne
        simp [EmailMap.set, hne]
      · simp [MockMailSlurpClient.GetEmails, EmailMap.get, hf]
      · simp [MockMailSlurpClient.GetEmails, MockMailSlurpClient.SendEmail, EmailMap.set,
          EmailMap.getD, EmailMap.get, hf]

/-- Witness for C6: a send to the mailbox of the test's fake, which already holds one
message, leaves two messages, the new one last and numbered 2; the entry of `other`
stays absent. -/
theorem mock_sendEmail_appends_one_witness :
    ((MockMailSlurpClient.testFake ⟨1⟩ ⟨2⟩).SendEmail "mock-inbox-id" "a@x.io" "s" "b" ⟨7⟩).1.GetEmails
        "mock-inbox-id"
      = .ok [{ ID := "mock-email-id", Subject := "Mock Subject", Body := "Mock Body",
               From := "sender@example.com", To := ["mock@example.com"], Created := ⟨2⟩,
               Read := false },
             { ID := "mock-email-2", Subject := "s", Body := "b", From := "sender@example.com",
               To := ["a@x.io"], Created := ⟨7⟩, Read := false }] ∧
    ∃ g : String → Option (List Email),
      ((MockMailSlurpClient.testFake ⟨1⟩ ⟨2⟩).SendEmail "mock-inbox-id" "a@x.io" "s" "b"
        ⟨7⟩).1.emails = some g ∧
      g "other" = none :=
  ⟨(mock_sendEmail_appends_one (MockMailSlurpClient.testFake ⟨1⟩ ⟨2⟩) "mock-inbox-id" "a@x.io"
      "s" "b" ⟨7⟩
      [{ ID := "mock-email-id", Subject := "Mock Subject", Body := "Mock Body",
         From := "sender@example.com", To := ["mock@example.com"], Created := ⟨2⟩,
         Read := false }] rfl).2.2.2.1,
   ((mock_sendEmail_appends_one (MockMailSlurpClient.testFake ⟨1⟩ ⟨2⟩) "mock-inbox-id" "a@x.io"
      "s" "b" ⟨7⟩
      [{ ID := "mock-email-id", Subject := "Mock Subject", Body := "Mock Body",
         From := "sender@example.com", To := ["mock@example.com"], Created := ⟨2⟩,
         Read := false }] rfl).2.1).elim
     (fun g hg => ⟨g, hg.1, (hg.2.2 "other" (by decide)).trans rfl⟩)⟩

/-! ## Theorems: the remote client -/

theorem fillFrom_append {α β : Type} (g : α → Option β) (d : β) (xs : List α) :
    ∀ done : List β,
      fillFrom g xs done.length (done ++ List.replicate xs.length d)
        = done ++ xs.map (fun x => (g x).getD d) := by
  induction xs with
  | nil => intro done; simp [fillFrom]
  | cons x rest ih =>
    intro done
    have h := ih (done ++ [(g x).getD d])
    simp only [List.length_append, List.length_singleton, List.append_assoc,
      List.singleton_append] at h
    simp only [fillFrom, List.length_cons, List.replicate_succ, List.map_cons]
    cases hg : g x with
    | none => simpa [hg] using h
    | some v =>
      have hs : (done ++ d :: List.replicate rest.length d).set done.length v
          = done ++ v :: List.replicate rest.length d := by
        rw [List.set_append_right _ _ (Nat.le_refl _)]
        simp
      simp only [hs]
      simpa [hg] using h

theorem fillFrom_replicate {α β : Type} (g : α → Option β) (d : β) (xs : List α) :
    fillFrom g xs 0 (List.replicate xs.length d) = xs.map (fun x => (g x).getD d) := by
  simpa using fillFrom_append g d xs []

theorem unmarshalErrorResponse_code_message (lib : Library) (body code m : String)
    (h : lib.jsonParse body = some (.object [("errorCode", .str code), ("message", .str m)])) :
    unmarshalErrorResponse lib body
      = some { Status := "", Message := m, ErrorCode := code, CaseNumber := "" } := by
  simp [unmarshalErrorResponse, h, decodeStruct, decodeStringFields, matchField]

namespace DefaultMailSlurpClient

theorem decode_ID (lib : Library) (data : DataMap) :
    (WaitForLatestEmail.decode lib data).ID = getStringValue data "id" := by
  unfold WaitForLatestEmail.decode
  repeat' split
  all_goals rfl

theorem decode_Subject (lib : Library) (data : DataMap) :
    (WaitForLatestEmail.decode lib data).Subject = getStringValue data "subject" := by
  unfold WaitForLatestEmail.decode
  repeat' split
  all_goals rfl

theorem decode_Body (lib : Library) (data : DataMap) :
    (WaitForLatestEmail.decode lib data).Body = getStringValue data "body" := by
  unfold WaitForLatestEmail.decode
  repeat' split
  all_goals rfl

theorem decode_From (lib : Library) (data : DataMap) :
    (WaitForLatestEmail.decode lib data).From = getStringValue data "from" := by
  unfold WaitForLatestEmail.decode
  repeat' split
  all_goals rfl

theorem decode_Read (lib : Library) (data : DataMap) :
    (WaitForLatestEmail.decode lib data).Read = getBoolValue data "read" := by
  unfold WaitForLatestEmail.decode
  repeat' split
  all_goals rfl

theorem decode_To (lib : Library) (data : DataMap) :
    (WaitForLatestEmail.decode lib data).To
      = (match data.index "to" with
         | some (.array items) => items.map (fun t => (asString t).getD "")
         | _ => []) := by
  unfold WaitForLatestEmail.decode
  repeat' split
  all_goals simp_all [fillFrom_replicate]

theorem decode_Created (lib : Library) (data : DataMap) :
    (WaitForLatestEmail.decode lib data).Created
      = (match data.index "createdAt" with
         | some (.str s) => (lib.parseRFC3339 s).getD Time.zero
         | _ => Time.zero) := by
  unfold WaitForLatestEmail.decode
  repeat' split
  all_goals simp_all

end DefaultMailSlurpClient

theorem contains_middle (a b c : String) : Contains (a ++ b ++ c) b := by
  unfold Contains
  exact ⟨a.data, c.data, by simp [String.data_append]⟩

theorem contains_trans {a b c : String} (h₁ : Contains b a) (h₂ : Contains c b) :
    Contains c a :=
  List.IsInfix.trans h₁ h₂

theorem structured_text_contains (code m status : String) :
    Contains ("ошибка API: " ++ code ++ " - " ++ m ++ ", код: " ++ status) code ∧
    Contains ("ошибка API: " ++ code ++ " - " ++ m ++ ", код: " ++ status) m := by
  constructor
  · have h := contains_middle "ошибка API: " code (" - " ++ m ++ ", код: " ++ status)
    simpa [String.append_assoc] using h
  · have h := contains_middle ("ошибка API: " ++ code ++ " - ") m (", код: " ++ status)
    simpa [String.append_assoc] using h

/-- For the five methods that decode the error envelope (`CreateInbox`, `DeleteInbox`,
`SendEmail`, `WaitForLatestEmail`, `GetEmails`): on a non-2xx response whose body is the
object with `errorCode` `PLAN_LIMIT_EXCEEDED` and a non-empty `message` `m`, the error
text is `ошибка API: PLAN_LIMIT_EXCEEDED - m, код: <status>`. -/
theorem structured_methods_plan_limit (lib : Library) (status : Nat) (body m : String)
    (hs : status < 200 ∨ 300 ≤ status) (hm : m ≠ "")
    (h : lib.jsonParse body
      = some (.object [("errorCode", .str "PLAN_LIMIT_EXCEEDED"), ("message", .str m)])) :
    DefaultMailSlurpClient.CreateInbox lib ⟨status, body⟩
      = .error (.api ("ошибка API: " ++ "PLAN_LIMIT_EXCEEDED" ++ " - " ++ m ++ ", код: "
          ++ toString status)) ∧
    DefaultMailSlurpClient.DeleteInbox lib ⟨status, body⟩
      = .error (.api ("ошибка API: " ++ "PLAN_LIMIT_EXCEEDED" ++ " - " ++ m ++ ", код: "
          ++ toString status)) ∧
    DefaultMailSlurpClient.SendEmail lib ⟨status, body⟩
      = .error (.api ("ошибка API: " ++ "PLAN_LIMIT_EXCEEDED" ++ " - " ++ m ++ ", код: "
          ++ toString status)) ∧
    DefaultMailSlurpClient.WaitForLatestEmail lib ⟨status, body⟩
      = .error (.api ("ошибка API: " ++ "PLAN_LIMIT_EXCEEDED" ++ " - " ++ m ++ ", код: "
          ++ toString status)) ∧
    DefaultMailSlurpClient.GetEmails lib ⟨status, body⟩
      = .error (.api ("ошибка API: " ++ "PLAN_LIMIT_EXCEEDED" ++ " - " ++ m ++ ", код: "
          ++ toString status)) := by
  have hu := unmarshalErrorResponse_code_message lib body "PLAN_LIMIT_EXCEEDED" m h
  have h200 : status ≠ 200 := by omega
  have h201 : status ≠ 201 := by omega
  have h204 : status ≠ 204 := by omega
  refine ⟨?_, ?_, ?_, ?_, ?_⟩
  · simp [DefaultMailSlurpClient.CreateInbox, hu, h200, h201, hm]
  · simp [DefaultMailSlurpClient.DeleteInbox, hu, h200, h204, hm]
  · simp [DefaultMailSlurpClient.SendEmail, hu, h200, h201, hm]
  · simp [DefaultMailSlurpClient.WaitForLatestEmail, hu, h200, hm]
  · simp [DefaultMailSlurpClient.GetEmails, hu, h200, hm]

/-- On every response whose status is not 200, `GetInboxes` fails with the text
`ошибка API: <body>, код: <status>`, which contains the raw body. -/
theorem getInboxes_raw_text (lib : Library) (status : Nat) (body : String)
    (hs : status ≠ 200) :
    DefaultMailSlurpClient.GetInboxes lib ⟨status, body⟩
      = .error (.api ("ошибка API: " ++ body ++ ", код: " ++ toString status)) ∧
    Contains ("ошибка API: " ++ body ++ ", код: " ++ toString status) body := by
  refine ⟨?_, ?_⟩
  · simp [DefaultMailSlurpClient.GetInboxes, hs]
  · have h := contains_middle "ошибка API: " body (", код: " ++ toString status)
    simpa [String.append_assoc] using h

/-- C7 (amended): for every response whose status is neither 200 nor 201, the remote
client's `CreateInbox` fails with an API error; its text is
`ошибка API: <errorCode> - <message>, код: <status>` whenever the body decodes without
error into the error envelope and the decoded message is non-empty, and otherwise (the
body does not decode, or decodes with an empty or missing message) it is
`ошибка API: <body>, код: <status>` with the raw body. -/
theorem createInbox_failure_text (lib : Library) (resp : Response)
    (h200 : resp.StatusCode ≠ 200) (h201 : resp.StatusCode ≠ 201) :
    (∃ text : String, DefaultMailSlurpClient.CreateInbox lib resp = .error (.api text)) ∧
    (∀ e : ErrorResponse, unmarshalErrorResponse lib resp.Body = some e → e.Message ≠ "" →
      DefaultMailSlurpClient.CreateInbox lib resp
        = .error (.api ("ошибка API: " ++ e.ErrorCode ++ " - " ++ e.Message ++ ", код: "
            ++ toString resp.StatusCode))) ∧
    ((∀ e : ErrorResponse, unmarshalErrorResponse lib resp.Body = some e → e.Message = "") →
      DefaultMailSlurpClient.CreateInbox lib resp
        = .error (.api ("ошибка API: " ++ resp.Body ++ ", код: "
            ++ toString resp.StatusCode))) := by
  unfold DefaultMailSlurpClient.CreateInbox
  simp only [h200, h201, ne_eq, not_false_eq_true, and_self, if_true]
  cases hu : unmarshalErrorResponse lib resp.Body with
  | none =>
    refine ⟨⟨_, rfl⟩, ?_, fun _ => rfl⟩
    intro e he
    cases he
  | some e =>
    by_cases hm : e.Message = ""
    · refine ⟨⟨"ошибка API: " ++ resp.Body ++ ", код: " ++ toString resp.StatusCode,
        by simp only [hm, not_true_eq_false, if_false]⟩, ?_, ?_⟩
      · intro e2 he2 hne
        cases he2
        exact absurd hm hne
      · intro _
        simp only [hm, not_true_eq_false, if_false]
    · refine ⟨⟨"ошибка API: " ++ e.ErrorCode ++ " - " ++ e.Message ++ ", код: "
          ++ toString resp.StatusCode,
        by simp only [hm, not_false_eq_true, if_true]⟩, ?_, ?_⟩
      · intro e2 he2 _
        cases he2
        simp only [hm, not_false_eq_true, if_true]
      · intro hall
        exact absurd (hall e rfl) hm

/-- Witness for C7: a 402 response with a plan-limit envelope that has a message. -/
theorem createInbox_failure_text_witness :
    DefaultMailSlurpClient.CreateInbox sampleLibrary ⟨402, bodyPlainMessage⟩
      = .error (.api "ошибка API: PLAN_LIMIT_EXCEEDED - limit reached, код: 402") :=
  (createInbox_failure_text sampleLibrary ⟨402, bodyPlainMessage⟩ (by decide) (by decide)).2.1
    { Status := "", Message := "limit reached", ErrorCode := "PLAN_LIMIT_EXCEEDED",
      CaseNumber := "" } (by decide) (by decide)

/-- C7 (counterexample): the 402 response with body
`{"status":"error","errorCode":"PLAN_LIMIT_EXCEEDED","caseNumber":"7"}` is a structured
error envelope (it decodes without error into `ErrorResponse`), yet the failure text of
`CreateInbox` is the raw body and status, not the combination of error code, message
and status. -/
theorem createInbox_envelope_without_message_raw :
    unmarshalErrorResponse sampleLibrary bodyNoMessage
      = some { Status := "error", Message := "", ErrorCode := "PLAN_LIMIT_EXCEEDED",
               CaseNumber := "7" } ∧
    DefaultMailSlurpClient.CreateInbox sampleLibrary ⟨402, bodyNoMessage⟩
      = .error (.api ("ошибка API: " ++ bodyNoMessage ++ ", код: 402")) ∧
    DefaultMailSlurpClient.CreateInbox sampleLibrary ⟨402, bodyNoMessage⟩
      ≠ .error (.api "ошибка API: PLAN_LIMIT_EXCEEDED - , код: 402") := by
  refine ⟨by decide, rfl, ?_⟩
  intro hc
  have hraw : DefaultMailSlurpClient.CreateInbox sampleLibrary ⟨402, bodyNoMessage⟩
      = .error (.api ("ошибка API: " ++ bodyNoMessage ++ ", код: 402")) := rfl
  rw [hraw] at hc
  simp only [Except.error.injEq, ClientError.api.injEq] at hc
  exact absurd hc (by decide)

/-- The range limit is `2^1024 - 2^970`. -/
theorem float64Limit_eq : float64Limit = 2 ^ 1024 - 2 ^ 970 := by
  have h1 : (2 ^ 194) ^ 5 = (2 : Nat) ^ 970 := by rw [← pow_mul]
  have h2 : (2 : Nat) ^ 1024 = 2 ^ 54 * 2 ^ 970 := by rw [← pow_add]
  rw [float64Limit, h1, h2, Nat.sub_mul, Nat.one_mul]

/-- Sample range checks: `1e999` and `-1e999` are out of range, a tiny value, a large
value in range and zero are in range. -/
theorem decimalFitsFloat64_samples :
    decimalFitsFloat64 "1e999" = false ∧ decimalFitsFloat64 "-1e999" = false ∧
    decimalFitsFloat64 "1e-999" = true ∧ decimalFitsFloat64 "1e200" = true ∧
    decimalFitsFloat64 "0" = true := by
  decide

theorem numbersFit_lookupMember (fits : String → Bool) (members : List (String × JSON)) :
    numbersFitMembers fits members = true →
      ∀ (key : String) (v : JSON), lookupMember members key = some v →
        v.numbersFit fits = true := by
  induction members with
  | nil =>
    intro _ key v hv
    simp [lookupMember] at hv
  | cons kv rest ih =>
    obtain ⟨k, w⟩ := kv
    intro hfit key v hv
    simp only [numbersFitMembers, Bool.and_eq_true] at hfit
    simp only [lookupMember] at hv
    cases hr : lookupMember rest key with
    | some u =>
      rw [hr] at hv
      simp only [Option.some.injEq] at hv
      subst hv
      exact ih hfit.2 key u hr
    | none =>
      rw [hr] at hv
      by_cases hk : k = key
      · simp only [hk, if_true, Option.some.injEq] at hv
        subst hv
        exact hfit.1
      · simp [hk] at hv

theorem numbersFit_mem (fits : String → Bool) (items : List JSON) :
    numbersFitList fits items = true → ∀ item ∈ items, item.numbersFit fits = true := by
  induction items with
  | nil =>
    intro _ item hmem
    cases hmem
  | cons v rest ih =>
    intro hfit item hmem
    simp only [numbersFitList, Bool.and_eq_true] at hfit
    rcases List.mem_cons.mp hmem with rfl | hrest
    · exact hfit.1
    · exact ih hfit.2 item hrest

theorem unmarshalMap_object (lib : Library) (body : String) (members : List (String × JSON))
    (h : lib.jsonParse body = some (.object members)) :
    unmarshalMap lib body
      = if numbersFitMembers lib.fitsFloat64 members then some (some members) else none := by
  simp [unmarshalMap, h]

/-- C9 (counterexample): the status-200 response with body `{"id":"e1","size":1e999}`
parses as a JSON object, yet `WaitForLatestEmail` fails: `json.Unmarshal` cannot convert
the number `1e999` to a `float64`. -/
theorem waitForLatestEmail_number_out_of_range :
    grammarLibrary.jsonParse bodyHugeNumber
      = some (.object [("id", .str "e1"), ("size", .number "1e999")]) ∧
    DefaultMailSlurpClient.WaitForLatestEmail grammarLibrary ⟨200, bodyHugeNumber⟩
      = .error .unparsable :=
  ⟨rfl, rfl⟩

/-- C9 (amended): on a status-200 response whose body parses as a JSON object, the
remote client's `WaitForLatestEmail` fails with the unparsable error when some number of
the body, at any depth, is out of the range of a `float64`, and otherwise does not
fail; then `id`, `subject`, `body` and `from` are the value under that key when it is a
string and the empty string otherwise; `read` is the value when it is a boolean and
`false` otherwise; the recipients are one entry per element of the `to` array, in
order, a non-string element giving the empty string, and none when `to` is missing or
not an array; the creation time is the zero time unless `createdAt` is a string that
parses as RFC 3339, and then it is the parsed time. -/
theorem waitForLatestEmail_lenient_decoding (lib : Library) (body : String)
    (members : List (String × JSON)) (h : lib.jsonParse body = some (.object members)) :
    (numbersFitMembers lib.fitsFloat64 members = false →
      DefaultMailSlurpClient.WaitForLatestEmail lib ⟨200, body⟩ = .error .unparsable) ∧
    (numbersFitMembers lib.fitsFloat64 members = true →
      ∃ email : Email,
        DefaultMailSlurpClient.WaitForLatestEmail lib ⟨200, body⟩ = .ok email ∧
        email.ID = (match lookupMember members "id" with
          | some (.str s) => s
          | _ => "") ∧
        email.Subject = (match lookupMember members "subject" with
          | some (.str s) => s
          | _ => "") ∧
        email.Body = (match lookupMember members "body" with
          | some (.str s) => s
          | _ => "") ∧
        email.From = (match lookupMember members "from" with
          | some (.str s) => s
          | _ => "") ∧
        email.Read = (match lookupMember members "read" with
          | some (.bool b) => b
          | _ => false) ∧
        email.To = (match lookupMember members "to" with
          | some (.array items) =>
            items.map (fun t =>
              match t with
              | .str s => s
              | _ => "")
          | _ => []) ∧
        email.Created = (match lookupMember members "createdAt" with
          | some (.str s) =>
            match lib.parseRFC3339 s with
            | some t => t
            | none => Time.zero
          | _ => Time.zero)) := by
  constructor
  · intro hfit
    simp [DefaultMailSlurpClient.WaitForLatestEmail, unmarshalMap_object lib body members h,
      hfit]
  · intro hfit
    refine ⟨DefaultMailSlurpClient.WaitForLatestEmail.decode lib (some members), ?_,
      ?_, ?_, ?_, ?_, ?_, ?_, ?_⟩
    · simp [DefaultMailSlurpClient.WaitForLatestEmail, unmarshalMap_object lib body members h,
        hfit]
    · rw [DefaultMailSlurpClient.decode_ID]; rfl
    · rw [DefaultMailSlurpClient.decode_Subject]; rfl
    · rw [DefaultMailSlurpClient.decode_Body]; rfl
    · rw [DefaultMailSlurpClient.decode_From]; rfl
    · rw [DefaultMailSlurpClient.decode_Read]; rfl
    · rw [DefaultMailSlurpClient.decode_To]
      simp only [DataMap.index]
      split
      · congr 1
        funext t
        cases t <;> rfl
      · rfl
    · rw [DefaultMailSlurpClient.decode_Created]
      simp only [DataMap.index]
      split
      · split <;> simp_all
      · rfl

/-- Witness for C9: the record
`{"id":"e1","subject":"Hi","from":7,"to":["a@x.io",5],"read":true,"createdAt":"2024-05-01T10:00:00Z"}`. -/
theorem waitForLatestEmail_lenient_decoding_witness :
    ∃ email : Email,
      DefaultMailSlurpClient.WaitForLatestEmail sampleLibrary ⟨200, bodyEmail⟩ = .ok email ∧
      email.ID = "e1" ∧ email.Subject = "Hi" ∧ email.Body = "" ∧ email.From = "" ∧
      email.Read = true ∧ email.To = ["a@x.io", ""] ∧
      email.Created = ⟨63850154400000000000⟩ :=
  (waitForLatestEmail_lenient_decoding sampleLibrary bodyEmail membersEmail (by rfl)).2
    (by decide)

set_option maxRecDepth 100000 in
/-- C8 (evaluation at the failing input): the 402 response with body
`{"errorCode":"PLAN_LIMIT_EXCEEDED","message":"limit \"free\""}` is the plan-limit
object with message `limit "free"`. `GetInboxes` fails with the raw body as text, which
contains the error code but not the message; `CreateInbox` on the same response decodes
the envelope and its text contains both. -/
theorem getInboxes_plan_limit_message_missing :
    unmarshalErrorResponse sampleLibrary bodyQuotedMessage
      = some { Status := "", Message := "limit \"free\"", ErrorCode := "PLAN_LIMIT_EXCEEDED",
               CaseNumber := "" } ∧
    DefaultMailSlurpClient.GetInboxes sampleLibrary ⟨402, bodyQuotedMessage⟩
      = .error (.api ("ошибка API: " ++ bodyQuotedMessage ++ ", код: 402")) ∧
    Contains ("ошибка API: " ++ bodyQuotedMessage ++ ", код: 402") "PLAN_LIMIT_EXCEEDED" ∧
    ¬ Contains ("ошибка API: " ++ bodyQuotedMessage ++ ", код: 402") "limit \"free\"" ∧
    DefaultMailSlurpClient.CreateInbox sampleLibrary ⟨402, bodyQuotedMessage⟩
      = .error (.api "ошибка API: PLAN_LIMIT_EXCEEDED - limit \"free\", код: 402") ∧
    Contains "ошибка API: PLAN_LIMIT_EXCEEDED - limit \"free\", код: 402"
      "PLAN_LIMIT_EXCEEDED" ∧
    Contains "ошибка API: PLAN_LIMIT_EXCEEDED - limit \"free\", код: 402" "limit \"free\"" := by
  refine ⟨by decide, rfl, ?_, ?_, rfl, ?_, ?_⟩
  all_goals unfold Contains
  all_goals decide

set_option maxRecDepth 100000 in
/-- C10 (counterexample): the status-200 page
`{"content":[{"id":"e1"}],"totalElements":1e999}` parses as a JSON object, yet
`GetEmails` fails: `json.Unmarshal` cannot convert the number `1e999` to a `float64`.
The page with the same `content` and the total `1` is decoded, so the result does
depend on another field of the envelope. -/
theorem getEmails_number_out_of_range :
    grammarLibrary.jsonParse bodyPageHugeTotal
      = some (.object [("content", .array [.object [("id", .str "e1")]]),
          ("totalElements", .number "1e999")]) ∧
    DefaultMailSlurpClient.GetEmails grammarLibrary ⟨200, bodyPageHugeTotal⟩
      = .error .unparsable ∧
    grammarLibrary.jsonParse bodyPageSmallTotal
      = some (.object [("content", .array [.object [("id", .str "e1")]]),
          ("totalElements", .number "1")]) ∧
    DefaultMailSlurpClient.GetEmails grammarLibrary ⟨200, bodyPageSmallTotal⟩
      = .ok [{ ID := "e1", Subject := "", Body := "", From := "", To := [],
               Created := Time.zero, Read := false }] :=
  ⟨rfl, rfl, rfl, rfl⟩

/-- C10 (amended): on a status-200 response whose body parses as a JSON object, the
remote client's `GetEmails` fails with the unparsable error when some number of the
body, at any depth and in any field, is out of the range of a `float64`. Otherwise it
does not fail and returns what the specification describes: one record per element of
the `content` array in order, an object element being the record `WaitForLatestEmail`
returns for a body that parses to that object, any other element the zero record, and
no record when `content` is missing or not an array; two such bodies with the same
`content` give the same result. -/
theorem getEmails_refines_spec (lib : Library) (body : String)
    (members : List (String × JSON)) (h : lib.jsonParse body = some (.object members)) :
    (numbersFitMembers lib.fitsFloat64 members = false →
      DefaultMailSlurpClient.GetEmails lib ⟨200, body⟩ = .error .unparsable) ∧
    (numbersFitMembers lib.fitsFloat64 members = true →
      DefaultMailSlurpClient.GetEmails lib ⟨200, body⟩ = .ok (GetEmailsSpec lib members) ∧
      (∀ items : List JSON, lookupMember members "content" = some (.array items) →
        (GetEmailsSpec lib members).length = items.length ∧
        ∀ (i : Nat) (hi : i < items.length) (itemMembers : List (String × JSON)),
          items.get ⟨i, hi⟩ = .object itemMembers →
          ∀ itemBody : String, lib.jsonParse itemBody = some (.object itemMembers) →
            ∃ e : Email, (GetEmailsSpec lib members)[i]? = some e ∧
              DefaultMailSlurpClient.WaitForLatestEmail lib ⟨200, itemBody⟩ = .ok e) ∧
      (∀ (otherBody : String) (otherMembers : List (String × JSON)),
        lib.jsonParse otherBody = some (.object otherMembers) →
        numbersFitMembers lib.fitsFloat64 otherMembers = true →
        lookupMember otherMembers "content" = lookupMember members "content" →
        DefaultMailSlurpClient.GetEmails lib ⟨200, otherBody⟩
          = DefaultMailSlurpClient.GetEmails lib ⟨200, body⟩)) := by
  have key : ∀ (b : String) (ms : List (String × JSON)),
      lib.jsonParse b = some (.object ms) → numbersFitMembers lib.fitsFloat64 ms = true →
      DefaultMailSlurpClient.GetEmails lib ⟨200, b⟩ = .ok (GetEmailsSpec lib ms) := by
    intro b ms hb hfit
    simp only [DefaultMailSlurpClient.GetEmails, unmarshalMap_object lib b ms hb, hfit,
      DataMap.index, GetEmailsSpec, ne_eq, not_true_eq_false, if_false, if_true]
    split
    · rename_i items hitems
      rw [fillFrom_replicate]
      congr 1
      apply List.map_congr_left
      intro item _
      cases item <;> rfl
    · rfl
  constructor
  · intro hfit
    simp [DefaultMailSlurpClient.GetEmails, unmarshalMap_object lib body members h, hfit]
  · intro hfit
    refine ⟨key body members h hfit, ?_, ?_⟩
    · intro items hitems
      refine ⟨by simp [GetEmailsSpec, hitems], ?_⟩
      intro i hi itemMembers hobj itemBody hitemBody
      have hcontent : (JSON.array items).numbersFit lib.fitsFloat64 = true :=
        numbersFit_lookupMember lib.fitsFloat64 members hfit "content" _ hitems
      have hall := numbersFit_mem lib.fitsFloat64 items
        (by simpa [JSON.numbersFit] using hcontent)
      have hitemFit : numbersFitMembers lib.fitsFloat64 itemMembers = true := by
        have := hall (items.get ⟨i, hi⟩) (List.get_mem items i hi)
        rw [hobj] at this
        simpa [JSON.numbersFit] using this
      refine ⟨DefaultMailSlurpClient.WaitForLatestEmail.decode lib (some itemMembers), ?_, ?_⟩
      · have hget : items[i]? = some (JSON.object itemMembers) := by
          rw [List.getElem?_eq_getElem hi]
          exact congrArg some hobj
        simp [GetEmailsSpec, hitems, hget]
      · simp [DefaultMailSlurpClient.WaitForLatestEmail,
          unmarshalMap_object lib itemBody itemMembers hitemBody, hitemFit]
    · intro otherBody otherMembers hother hotherFit hsame
      rw [key otherBody otherMembers hother hotherFit, key body members h hfit]
      simp only [GetEmailsSpec, hsame]

/-- Witness for C10: the page
`{"content":[{"id":"e1","to":["a@x.io"]},3],"totalElements":2}`. -/
theorem getEmails_refines_spec_witness :
    DefaultMailSlurpClient.GetEmails sampleLibrary ⟨200, bodyPage⟩
      = .ok [{ ID := "e1", Subject := "", Body := "", From := "", To := ["a@x.io"],
               Created := Time.zero, Read := false }, Email.zero] :=
  ((getEmails_refines_spec sampleLibrary bodyPage membersPage (by rfl)).2
    (by decide)).1.trans rfl

/-! ## Theorems: the request body of `SendEmail` -/

theorem scanStringAux_plain (cs : List Char)
    (h : ∀ c ∈ cs, c ≠ '"' ∧ c ≠ '\\' ∧ 0x20 ≤ c.toNat) :
    ∀ (n : Nat) (acc rest : List Char), cs.length < n →
      scanStringAux n (cs ++ '"' :: rest) acc = some (String.mk (acc ++ cs), rest) := by
  induction cs with
  | nil =>
    intro n acc rest hn
    cases n with
    | zero => omega
    | succ k => simp [scanStringAux]
  | cons c cs ih =>
    intro n acc rest hn
    cases n with
    | zero => omega
    | succ k =>
      have hc := h c (List.mem_cons_self c cs)
      have hrest : ∀ d ∈ cs, d ≠ '"' ∧ d ≠ '\\' ∧ 0x20 ≤ d.toNat :=
        fun d hd => h d (List.mem_cons_of_mem c hd)
      have hlen : cs.length < k := by simp at hn; omega
      have hctl : ¬ c.toNat < 0x20 := by omega
      have hstep : scanStringAux (k + 1) (c :: (cs ++ '"' :: rest)) acc
          = scanStringAux k (cs ++ '"' :: rest) (acc ++ [c]) := by
        simp only [scanStringAux, hc.1, hc.2.1, hctl, if_false]
      rw [List.cons_append, hstep, ih hrest k (acc ++ [c]) rest hlen]
      simp

theorem scanString_plain (cs rest : List Char)
    (h : ∀ c ∈ cs, c ≠ '"' ∧ c ≠ '\\' ∧ 0x20 ≤ c.toNat) :
    scanString (cs ++ '"' :: rest) = some (String.mk cs, rest) := by
  unfold scanString
  rw [scanStringAux_plain cs h _ [] rest (by simp; omega)]
  simp

theorem parseAux_value_string (n depth : Nat) (cs rest : List Char)
    (h : ∀ c ∈ cs, c ≠ '"' ∧ c ≠ '\\' ∧ 0x20 ≤ c.toNat) :
    parseAux (n + 1) depth .value ('"' :: (cs ++ '"' :: rest))
      = some (.str (String.mk cs), rest) := by
  simp [parseAux, skipWhitespace, isWhitespace, scanString_plain cs rest h]

theorem payload_data (toAddr subject body : String) :
    (DefaultMailSlurpClient.SendEmail.payload toAddr subject body).data
      = '\x7b' :: '\n' :: '\t' :: '\t' :: '"' :: 't' :: 'o' :: '"' :: ':' :: ' ' :: '[' :: '"' ::
        (toAddr.data ++ '"' :: ']' :: ',' :: '\n' :: '\t' :: '\t' :: '"' :: 's' :: 'u' :: 'b' ::
          'j' :: 'e' :: 'c' :: 't' :: '"' :: ':' :: ' ' :: '"' ::
        (subject.data ++ '"' :: ',' :: '\n' :: '\t' :: '\t' :: '"' :: 'b' :: 'o' :: 'd' :: 'y' ::
          '"' :: ':' :: ' ' :: '"' ::
        (body.data ++ ['"', '\n', '\t', '\x7d']))) := rfl

theorem payload_parses (toAddr subject body : String)
    (hto : PlainText toAddr) (hsubject : PlainText subject) (hbody : PlainText body) :
    parseJSON (DefaultMailSlurpClient.SendEmail.payload toAddr subject body)
      = some (.object [("to", .array [.str toAddr]), ("subject", .str subject),
          ("body", .str body)]) := by
  have kTo : ∀ rest : List Char, scanString ('t' :: 'o' :: '"' :: rest) = some ("to", rest) :=
    fun rest => scanString_plain ['t', 'o'] rest (by decide)
  have kSubject : ∀ rest : List Char,
      scanString ('s' :: 'u' :: 'b' :: 'j' :: 'e' :: 'c' :: 't' :: '"' :: rest)
        = some ("subject", rest) :=
    fun rest => scanString_plain ['s', 'u', 'b', 'j', 'e', 'c', 't'] rest (by decide)
  have kBody : ∀ rest : List Char,
      scanString ('b' :: 'o' :: 'd' :: 'y' :: '"' :: rest) = some ("body", rest) :=
    fun rest => scanString_plain ['b', 'o', 'd', 'y'] rest (by decide)
  have vTo : ∀ rest : List Char, scanString (toAddr.data ++ '"' :: rest) = some (toAddr, rest) :=
    fun rest => scanString_plain toAddr.data rest hto
  have vSubject : ∀ rest : List Char,
      scanString (subject.data ++ '"' :: rest) = some (subject, rest) :=
    fun rest => scanString_plain subject.data rest hsubject
  have vBody : ∀ rest : List Char, scanString (body.data ++ '"' :: rest) = some (body, rest) :=
    fun rest => scanString_plain body.data rest hbody
  obtain ⟨m, hm⟩ : ∃ m : Nat,
      2 * (DefaultMailSlurpClient.SendEmail.payload toAddr subject body).length + 2 = m + 5 :=
    ⟨2 * (DefaultMailSlurpClient.SendEmail.payload toAddr subject body).length - 3, by
      have : 4 ≤ (DefaultMailSlurpClient.SendEmail.payload toAddr subject body).length := by
        rw [String.length, payload_data]
        simp
      omega⟩
  unfold parseJSON
  rw [hm, payload_data]
  simp [parseAux, maxNestingDepth, skipWhitespace, isWhitespace, kTo, kSubject, kBody, vTo,
    vSubject, vBody]

/-- On the sample bodies the table of `sampleLibrary` gives the value the JSON grammar
gives. -/
theorem sampleLibrary_agrees_with_grammar :
    sampleLibrary.jsonParse bodyNoMessage = parseJSON bodyNoMessage ∧
    sampleLibrary.jsonParse bodyQuotedMessage = parseJSON bodyQuotedMessage ∧
    sampleLibrary.jsonParse bodyPlainMessage = parseJSON bodyPlainMessage ∧
    sampleLibrary.jsonParse bodyEmail = parseJSON bodyEmail ∧
    sampleLibrary.jsonParse bodyPage = parseJSON bodyPage :=
  ⟨rfl, rfl, rfl, rfl, rfl⟩

/-- A subject that holds a double quote breaks the request body: it is not JSON. -/
theorem payload_with_quote_not_json :
    parseJSON (DefaultMailSlurpClient.SendEmail.payload "a@x.io" "say \"hi\"" "text") = none :=
  rfl

/-- C11: the request body of the remote client's `SendEmail` is the fixed template of
the source (an object with the fields `to`, `subject`, `body`, laid out over four lines)
with recipient, subject and body inserted verbatim in that order, no character escaped
or altered; and when none of the three holds a double quote, a backslash or a control
character, the request body is JSON text for the object with exactly the fields
`to = [recipient]`, `subject` and `body`. -/
theorem sendEmail_payload_template (toAddr subject body : String) :
    DefaultMailSlurpClient.SendEmail.payload toAddr subject body
      = "\x7b\n\t\t\"to\": [\"" ++ toAddr ++ "\"],\n\t\t\"subject\": \"" ++ subject
          ++ "\",\n\t\t\"body\": \"" ++ body ++ "\"\n\t\x7d" ∧
    (PlainText toAddr → PlainText subject → PlainText body →
      parseJSON (DefaultMailSlurpClient.SendEmail.payload toAddr subject body)
        = some (.object [("to", .array [.str toAddr]), ("subject", .str subject),
            ("body", .str body)])) := by
  refine ⟨?_, payload_parses toAddr subject body⟩
  apply String.ext
  rw [payload_data]
  simp only [String.data_append, List.append_assoc]
  rfl

/-- Witness for C11: a plain recipient, subject and body. -/
theorem sendEmail_payload_template_witness :
    parseJSON (DefaultMailSlurpClient.SendEmail.payload "a@x.io" "Hello" "Line one. Line two.")
      = some (.object [("to", .array [.str "a@x.io"]), ("subject", .str "Hello"),
          ("body", .str "Line one. Line two.")]) :=
  (sendEmail_payload_template "a@x.io" "Hello" "Line one. Line two.").2
    (by unfold PlainText; decide) (by unfold PlainText; decide) (by unfold PlainText; decide)

/-- C12: on a status-200 response whose body decodes as a sequence of mailbox records,
the remote client's `GetInboxes` does not fail and returns one `Inbox` per record, in
order, with identifier, address, name and description copied from the record; the
creation time of each is the parsed `createdAt` of its record, and the zero time when
that text does not parse as RFC 3339, whatever the other records hold. -/
theorem getInboxes_decodes_records (lib : Library) (body : String)
    (records : List InboxResponse) (h : unmarshalInboxResponses lib body = some records) :
    ∃ inboxes : List Inbox,
      DefaultMailSlurpClient.GetInboxes lib ⟨200, body⟩ = .ok inboxes ∧
      inboxes.length = records.length ∧
      ∀ (i : Nat) (hi : i < records.length), ∃ inbox : Inbox,
        inboxes[i]? = some inbox ∧
        inbox.ID = (records.get ⟨i, hi⟩).ID ∧
        inbox.EmailAddress = (records.get ⟨i, hi⟩).EmailAddress ∧
        inbox.Name = (records.get ⟨i, hi⟩).Name ∧
        inbox.Description = (records.get ⟨i, hi⟩).Description ∧
        (∀ t : Time, lib.parseRFC3339 (records.get ⟨i, hi⟩).CreatedAt = some t →
          inbox.CreatedAt = t) ∧
        (lib.parseRFC3339 (records.get ⟨i, hi⟩).CreatedAt = none →
          inbox.CreatedAt = Time.zero) := by
  refine ⟨records.map (inboxOfResponse lib), ?_, by simp, ?_⟩
  · simp only [DefaultMailSlurpClient.GetInboxes, h, ne_eq, not_true_eq_false, if_false]
    rw [fillFrom_replicate]
    simp
  · intro i hi
    refine ⟨inboxOfResponse lib (records.get ⟨i, hi⟩), ?_, rfl, rfl, rfl, rfl, ?_, ?_⟩
    · simp [List.getElem?_eq_getElem hi]
    · intro t ht
      show (lib.parseRFC3339 (records.get ⟨i, hi⟩).CreatedAt).getD Time.zero = t
      rw [ht]
      rfl
    · intro hnone
      show (lib.parseRFC3339 (records.get ⟨i, hi⟩).CreatedAt).getD Time.zero = Time.zero
      rw [hnone]
      rfl

set_option maxRecDepth 100000 in
/-- Witness for C12: two records, the second with the timestamp `yesterday`. -/
theorem getInboxes_decodes_records_witness :
    ∃ inboxes : List Inbox,
      DefaultMailSlurpClient.GetInboxes grammarLibrary ⟨200, bodyInboxes⟩ = .ok inboxes ∧
      inboxes.length = 2 ∧
      ∀ (i : Nat) (hi : i < 2), ∃ inbox : Inbox,
        inboxes[i]? = some inbox ∧
        inbox.ID = (([⟨"i1", "a@x.io", "2024-05-01T10:00:00Z", "first", ""⟩,
          ⟨"i2", "b@x.io", "yesterday", "", "second"⟩] : List InboxResponse).get ⟨i, hi⟩).ID ∧
        inbox.EmailAddress = (([⟨"i1", "a@x.io", "2024-05-01T10:00:00Z", "first", ""⟩,
          ⟨"i2", "b@x.io", "yesterday", "", "second"⟩] :
            List InboxResponse).get ⟨i, hi⟩).EmailAddress ∧
        inbox.Name = (([⟨"i1", "a@x.io", "2024-05-01T10:00:00Z", "first", ""⟩,
          ⟨"i2", "b@x.io", "yesterday", "", "second"⟩] : List InboxResponse).get ⟨i, hi⟩).Name ∧
        inbox.Description = (([⟨"i1", "a@x.io", "2024-05-01T10:00:00Z", "first", ""⟩,
          ⟨"i2", "b@x.io", "yesterday", "", "second"⟩] :
            List InboxResponse).get ⟨i, hi⟩).Description ∧
        (∀ t : Time, grammarLibrary.parseRFC3339
            (([⟨"i1", "a@x.io", "2024-05-01T10:00:00Z", "first", ""⟩,
              ⟨"i2", "b@x.io", "yesterday", "", "second"⟩] :
                List InboxResponse).get ⟨i, hi⟩).CreatedAt = some t →
          inbox.CreatedAt = t) ∧
        (grammarLibrary.parseRFC3339
            (([⟨"i1", "a@x.io", "2024-05-01T10:00:00Z", "first", ""⟩,
              ⟨"i2", "b@x.io", "yesterday", "", "second"⟩] :
                List InboxResponse).get ⟨i, hi⟩).CreatedAt = none →
          inbox.CreatedAt = Time.zero) :=
  getInboxes_decodes_records grammarLibrary bodyInboxes
    [⟨"i1", "a@x.io", "2024-05-01T10:00:00Z", "first", ""⟩,
     ⟨"i2", "b@x.io", "yesterday", "", "second"⟩] (by rfl)

/-! ## Theorems: the example program and identifier reuse -/

set_option maxRecDepth 100000 in
/-- A text that ends with the status part `, код: <status>` is none of the two literals
the example program compares with. -/
theorem text_with_status_not_plan_limit (a b : String) :
    isPlanLimitText (a ++ ", код: " ++ b) = false := by
  have hc : Contains (a ++ ", код: " ++ b) ", код: " := contains_middle a ", код: " b
  have h₁ : ¬ Contains "ошибка API: ограничение бесплатного плана" ", код: " := by
    unfold Contains; decide
  have h₂ : ¬ Contains "ошибка API: PLAN_LIMIT_EXCEEDED" ", код: " := by
    unfold Contains; decide
  have n₁ : a ++ ", код: " ++ b ≠ "ошибка API: ограничение бесплатного плана" :=
    fun e => h₁ (e ▸ hc)
  have n₂ : a ++ ", код: " ++ b ≠ "ошибка API: PLAN_LIMIT_EXCEEDED" :=
    fun e => h₂ (e ▸ hc)
  simp [isPlanLimitText, n₁, n₂]

/-- Whatever the response, the text of an API error of `CreateInbox` is none of the two
literals the example program compares with: the plan-limit branch of `main` is never
taken for such an error. -/
theorem createInbox_error_never_plan_limit (lib : Library) (resp : Response) (text : String)
    (h : DefaultMailSlurpClient.CreateInbox lib resp = .error (.api text)) :
    isPlanLimitText text = false := by
  unfold DefaultMailSlurpClient.CreateInbox at h
  split at h
  · split at h
    · split at h
      · simp only [Except.error.injEq, ClientError.api.injEq] at h
        rw [← h]
        exact text_with_status_not_plan_limit _ _
      · simp only [Except.error.injEq, ClientError.api.injEq] at h
        rw [← h]
        exact text_with_status_not_plan_limit _ _
    · simp only [Except.error.injEq, ClientError.api.injEq] at h
      rw [← h]
      exact text_with_status_not_plan_limit _ _
  · split at h
    · cases h
    · cases h

/-- C13 (evaluation at the failing input): on the 402 response with body
`{"errorCode":"PLAN_LIMIT_EXCEEDED","message":"limit reached"}` the remote client's
`CreateInbox` fails with the text
`ошибка API: PLAN_LIMIT_EXCEEDED - limit reached, код: 402`, and the plan-limit
condition of `main` is false on that text. -/
theorem example_plan_limit_check_misses :
    unmarshalErrorResponse sampleLibrary bodyPlainMessage
      = some { Status := "", Message := "limit reached", ErrorCode := "PLAN_LIMIT_EXCEEDED",
               CaseNumber := "" } ∧
    DefaultMailSlurpClient.CreateInbox sampleLibrary ⟨402, bodyPlainMessage⟩
      = .error (.api "ошибка API: PLAN_LIMIT_EXCEEDED - limit reached, код: 402") ∧
    isPlanLimitText "ошибка API: PLAN_LIMIT_EXCEEDED - limit reached, код: 402" = false :=
  ⟨by decide, rfl, by decide⟩

/-- C14 (evaluation at the failing input): after `CreateInbox`, `CreateInbox`,
`DeleteInbox("mock-inbox-1")` the fake holds the one mailbox `mock-inbox-2`; the next
`CreateInbox` returns the identifier `mock-inbox-2` again, and the reachable state it
leaves holds two mailboxes with that identifier. -/
theorem mock_createInbox_reuses_identifier :
    MockMailSlurpClient.Reachable MockMailSlurpClient.afterDelete ∧
    MockMailSlurpClient.afterDelete.inboxes.map (fun inbox => inbox.ID) = ["mock-inbox-2"] ∧
    (MockMailSlurpClient.afterDelete.CreateInbox ⟨3⟩).2
      = .ok { ID := "mock-inbox-2", EmailAddress := "mock2@example.com", CreatedAt := ⟨3⟩,
              Name := "", Description := "" } ∧
    MockMailSlurpClient.Reachable (MockMailSlurpClient.afterDelete.CreateInbox ⟨3⟩).1 ∧
    (MockMailSlurpClient.afterDelete.CreateInbox ⟨3⟩).1.inboxes.map (fun inbox => inbox.ID)
      = ["mock-inbox-2", "mock-inbox-2"] ∧
    ¬ ((MockMailSlurpClient.afterDelete.CreateInbox ⟨3⟩).1.inboxes.map
        (fun inbox => inbox.ID)).Nodup :=
  ⟨⟨_, rfl⟩, by decide,
   rfl,
   ⟨[.createInbox ⟨1⟩, .createInbox ⟨2⟩, .deleteInbox "mock-inbox-1", .createInbox ⟨3⟩], rfl⟩,
   by decide, by decide⟩

end MailSlurp
